import Mathlib

/-!
Shallow embedding of the bpsr_labs capture-parsing pipeline:
the resynchronizing framer (`framing.py`), the decompression wrapper,
the combat decoders (`combat_decode.py`, `combat_decode_v2.py`),
the trading extractor (`trading_center_decode.py`) and the DPS reducer
(`combat_reduce.py`).  Byte buffers are lists of naturals (each < 256 in a
real capture); external effectful libraries (zstandard, blackboxprotobuf,
google.protobuf) are abstracted as oracles passed explicitly.
-/

namespace BpsrLabs

/-- A byte buffer, as handed to the Python code (`bytes`). -/
abbrev Bytes := List Nat

/-- `buf[i]` with Python's `struct.unpack_from` semantics at in-range
indices (all uses in the source are in range; out of range reads 0). -/
def byteAt (b : Bytes) (i : Nat) : Nat := b.getD i 0

/-- Big-endian `u16` read, `struct.unpack_from(">H", ...)`. -/
def be16 (b : Bytes) (i : Nat) : Nat := byteAt b i * 256 + byteAt b (i + 1)

/-- Big-endian `u32` read, `struct.unpack_from(">I", ...)`. -/
def be32 (b : Bytes) (i : Nat) : Nat :=
  byteAt b i * 16777216 + byteAt b (i + 1) * 65536 +
    byteAt b (i + 2) * 256 + byteAt b (i + 3)

/-- Big-endian `u64` read, `struct.unpack_from(">Q", ...)`. -/
def be64 (b : Bytes) (i : Nat) : Nat :=
  be32 b i * 4294967296 + be32 b (i + 4)

/-- Python slice `b[start:stop]` (for `0 ≤ start`, `0 ≤ stop`). -/
def slice (b : Bytes) (start stop : Nat) : Bytes :=
  (b.drop start).take (stop - start)

/-- The zstd magic prefix `28 B5 2F FD`. -/
def zstdMagic : Bytes := [0x28, 0xb5, 0x2f, 0xfd]

/-- `data.startswith(_ZSTD_MAGIC)`. -/
def hasMagic (d : Bytes) : Bool := d.take 4 == zstdMagic

/-- `10 * 1024 * 1024`, the framer's decompression output cap. -/
def maxDecompressedSize : Nat := 10485760

/-- Oracle abstracting the zstandard streaming reader: for a given
compressed input, the sequence of non-empty chunks `reader.read(16384)`
yields before returning the empty chunk, or an error (`ZstdError`). -/
abbrev ZChunkOracle := Bytes → Except Unit (List Bytes)

/-- Counters of `FrameReader` (`framing.py`), plus `max_depth`, the
deepest `_parse_stream` recursion level reached (instrumentation of the
Python call stack; the top-level call is depth 1). -/
structure FramerSt where
  bytes_scanned : Nat := 0
  frames_parsed : Nat := 0
  resync_events : Nat := 0
  notify_frames : Nat := 0
  zstd_flag_without_magic : Nat := 0
  fragment_histogram : Nat → Nat := fun _ => 0
  max_depth : Nat := 0

/-- Bump `resync_events` by one. -/
def FramerSt.bumpResync (st : FramerSt) : FramerSt :=
  { st with resync_events := st.resync_events + 1 }

/-- Bump `resync_events` by `k`. -/
def FramerSt.addResync (st : FramerSt) (k : Nat) : FramerSt :=
  { st with resync_events := st.resync_events + k }

/-- `NotifyFrame` dataclass of `framing.py`. -/
structure NotifyFrame where
  service_uid : Nat
  stub_id : Nat
  method_id : Nat
  payload : Bytes
  was_compressed : Bool
  offset : Nat
deriving Repr, DecidableEq

/-- The chunk-accumulation loop of `FrameReader._maybe_decompress`:
add each chunk's length to the running total and abort (`none`) as soon
as the total exceeds `cap`; otherwise return the accepted chunks. -/
def zstdCapLoop (cap : Nat) : List Bytes → Nat → Option (List Bytes)
  | [], _ => some []
  | c :: rest, total =>
      if total + c.length > cap then none
      else (zstdCapLoop cap rest (total + c.length)).map (fun cs => c :: cs)

/-- `FrameReader._maybe_decompress(data, flagged)`.  Returns the
(possibly decompressed) bytes, the `was_decompressed` flag and the
updated counters. -/
def framer_maybe_decompress (zo : ZChunkOracle) (data : Bytes) (flagged : Bool)
    (st : FramerSt) : Bytes × Bool × FramerSt :=
  if flagged = false ∨ data = [] then (data, false, st)
  else if hasMagic data = false then
    (data, false, { st with zstd_flag_without_magic := st.zstd_flag_without_magic + 1 })
  else
    match zo data with
    | .error _ => (data, false, st.bumpResync)
    | .ok cs =>
        match zstdCapLoop maxDecompressedSize cs 0 with
        | none => (data, false, st.bumpResync)
        | some cs' => (cs'.flatten, true, st)

/-- `FrameReader._parse_notify(body, is_zstd, frame_offset)`. -/
def parse_notify (zo : ZChunkOracle) (body : Bytes) (is_zstd : Bool)
    (frame_offset : Nat) (st : FramerSt) : Option NotifyFrame × FramerSt :=
  if body.length < 16 then (none, st.bumpResync)
  else
    let r := framer_maybe_decompress zo (body.drop 16) is_zstd st
    (some { service_uid := be64 body 0
            stub_id := be32 body 8
            method_id := be32 body 12
            payload := r.1
            was_compressed := r.2.1
            offset := frame_offset }, r.2.2)

/-- `FrameReader._parse_stream(view)` at cursor `offset`, fuelled: each
loop iteration and each recursion into a nested FrameDown stream consumes
one unit of fuel (the Python generator has no fuel; any run that halts is
reproduced exactly by every sufficiently large fuel).  `depth` is the
current recursion depth (top level = 1), recorded into `max_depth`. -/
def parse_stream (zo : ZChunkOracle) :
    Nat → Bytes → Nat → Nat → FramerSt → List NotifyFrame × FramerSt
  | 0, _, _, _, st => ([], st)
  | fuel + 1, buf, offset, depth, st =>
    if offset + 6 ≤ buf.length then
      let frame_len := be32 buf offset
      let pkt_type := be16 buf (offset + 4)
      let fragment_type := pkt_type &&& 0x7FFF
      let is_zstd : Bool := pkt_type &&& 0x8000 ≠ 0
      if frame_len < 6 then
        parse_stream zo fuel buf (offset + 1) depth st.bumpResync
      else if offset + frame_len > buf.length then
        parse_stream zo fuel buf (offset + 1) depth st.bumpResync
      else
        let endPos := offset + frame_len
        let body := slice buf (offset + 6) endPos
        let st1 := { st with frames_parsed := st.frames_parsed + 1,
                             fragment_histogram := fun t =>
                               if t = fragment_type then st.fragment_histogram t + 1
                               else st.fragment_histogram t }
        if fragment_type = 0x0002 then
          match parse_notify zo body is_zstd offset st1 with
          | (some nf, st2) =>
              let r := parse_stream zo fuel buf endPos depth
                { st2 with notify_frames := st2.notify_frames + 1 }
              (nf :: r.1, r.2)
          | (none, st2) => parse_stream zo fuel buf endPos depth st2
        else if fragment_type = 0x0006 then
          if 4 ≤ body.length then
            let d := framer_maybe_decompress zo (body.drop 4) is_zstd st1
            if d.1 ≠ [] then
              let rn := parse_stream zo fuel d.1 0 (depth + 1)
                { d.2.2 with max_depth := max d.2.2.max_depth (depth + 1) }
              let rc := parse_stream zo fuel buf endPos depth rn.2
              (rn.1 ++ rc.1, rc.2)
            else
              parse_stream zo fuel buf endPos depth d.2.2
          else
            parse_stream zo fuel buf endPos depth st1.bumpResync
        else
          parse_stream zo fuel buf endPos depth st1
    else ([], st)

/-- `FrameReader().iter_notify_frames(data)`, run to completion on a fresh
reader and fully consumed (counters observed afterwards). -/
def iter_notify_frames (zo : ZChunkOracle) (fuel : Nat) (data : Bytes) :
    List NotifyFrame × FramerSt :=
  parse_stream zo fuel data 0 1
    { bytes_scanned := data.length, max_depth := 1 }

/-! ## JSON-like trees

Values moved between the decoders and the reducer: Python's `json.loads`
output and `blackboxprotobuf` / `MessageToDict` trees.  Floats do not
occur in the decoded combat records (protobuf integer fields arrive as
ints or decimal strings) and are not modelled. -/

inductive JValue where
  | null
  | bool (b : Bool)
  | int (n : Int)
  | str (s : String)
  | arr (xs : List JValue)
  | obj (kvs : List (String × JValue))
deriving Repr

/-- `d.get(k)` on a Python dict (keys unique; first binding wins). -/
def objGet (kvs : List (String × JValue)) (k : String) : Option JValue :=
  (kvs.find? (fun p => p.1 == k)).map (·.2)

/-- Python truthiness of a JSON value. -/
def jTruthy : JValue → Bool
  | .null => false
  | .bool b => b
  | .int n => n ≠ 0
  | .str s => s ≠ ""
  | .arr xs => ¬xs.isEmpty
  | .obj kvs => ¬kvs.isEmpty

/-- Truthiness of `d.get(k)` (a missing key, `None`, is falsy). -/
def optTruthy : Option JValue → Bool
  | none => false
  | some v => jTruthy v

/-! ## Trading extractor (`trading_center_decode.py`) -/

/-- Oracles abstracting the two zstandard calls of the trading
`maybe_decompress`: `ZstdDecompressor().decompress(data)` (one-shot) and
the `stream_reader(...).read()` fallback.  `error` is a raised
`ZstdError` (for the fallback: any raised exception). -/
abbrev ZOneShot := Bytes → Except Unit Bytes

/-- `maybe_decompress(data, is_zstd)` of `trading_center_decode.py`.
No output cap is applied; an error from the fallback propagates. -/
def tc_maybe_decompress (z1 z2 : ZOneShot) (data : Bytes) (is_zstd : Bool) :
    Except Unit Bytes :=
  if is_zstd = false ∨ data = [] then .ok data
  else if hasMagic data = false then .ok data
  else
    match z1 data with
    | .ok out => .ok out
    | .error _ => z2 data

/-- Loop body of `read_varint`, fuelled by the remaining buffer length
(`pos` advances by one per iteration; falling off the end is the raised
`ValueError`, returned as `none`). -/
def read_varint_aux (data : Bytes) : Nat → Nat → Nat → Nat → Option (Nat × Nat)
  | 0, _, _, _ => none
  | fuel + 1, pos, shift, value =>
      if pos < data.length then
        let b := byteAt data pos
        let value' := value ||| ((b &&& 0x7F) <<< shift)
        if b &&& 0x80 = 0 then some (value', pos + 1)
        else read_varint_aux data fuel (pos + 1) (shift + 7) value'
      else none

/-- `read_varint(data, start)`: protobuf unsigned varint decode. -/
def read_varint (data : Bytes) (start : Nat) : Option (Nat × Nat) :=
  read_varint_aux data (data.length + 1 - start) start 0 0

/-- One yielded tuple of `iter_frames`: `(offset, length, pkt_type & 0x7FFF,
is_zstd, body)`. -/
structure TcFrame where
  offset : Nat
  length : Nat
  fragment_type : Nat
  is_zstd : Bool
  body : Bytes
deriving Repr, DecidableEq

/-- `iter_frames(data)` from cursor `offset`, fuelled (the cursor strictly
advances every iteration, so fuel `data.length + 1` runs to completion). -/
def tc_iter_frames_aux (data : Bytes) : Nat → Nat → List TcFrame
  | 0, _ => []
  | fuel + 1, offset =>
    if offset + 6 ≤ data.length then
      let length := be32 data offset
      if length = 0 ∨ offset + length > data.length then
        tc_iter_frames_aux data fuel (offset + 1)
      else
        let pkt_type := be16 data (offset + 4)
        { offset := offset, length := length,
          fragment_type := pkt_type &&& 0x7FFF,
          is_zstd := pkt_type &&& 0x8000 ≠ 0,
          body := slice data (offset + 6) (offset + length) } ::
          tc_iter_frames_aux data fuel (offset + length)
    else []

/-- `iter_frames(data)`, fully consumed. -/
def tc_iter_frames (data : Bytes) : List TcFrame :=
  tc_iter_frames_aux data (data.length + 1) 0

/-- `Listing` dataclass of `trading_center_decode.py`. -/
structure Listing where
  frame_offset : Nat
  server_sequence : Nat
  price_luno : Int
  quantity : Int
  item_config_id : Option Int
  raw_entry : JValue
deriving Repr

/-- Python `isinstance(v, int)` projection on a decoded tree value
(`bool` is a subclass of `int` in Python). -/
def pyIsInt : Option JValue → Option Int
  | some (.int n) => some n
  | some (.bool b) => some (if b then 1 else 0)
  | _ => none

/-- Oracle abstracting `blackboxprotobuf.decode_message(segment)`:
the decoded tree keyed by stringified field numbers, or `none` when the
call raises (caught by `except Exception`). -/
abbrev BbpbOracle := Bytes → Option (List (String × JValue))

/-- The per-entry filter of `extract_listing_blocks`: a `Listing` is
appended when `entry` is a dict with integer `"1"` (price), integer
`"2"` (quantity) and a dict `"3"` that has key `"2"`; `item_config_id`
is the `"3"."2"` value when it is an integer, else `None`. -/
def listing_of_entry (frame_offset server_seq : Nat) (entry : JValue) :
    Option Listing :=
  match entry with
  | .obj e =>
    match pyIsInt (objGet e "1"), pyIsInt (objGet e "2"), objGet e "3" with
    | some price, some quantity, some (.obj details) =>
        if (objGet details "2").isSome then
          some { frame_offset := frame_offset
                 server_sequence := server_seq
                 price_luno := price
                 quantity := quantity
                 item_config_id :=
                   match objGet details "2" with
                   | some (.int i) => some i
                   | some (.bool b) => some (if b then 1 else 0)
                   | _ => none
                 raw_entry := entry }
        else none
    | _, _, _ => none
  | _ => none

/-- All listings contributed by one decoded segment (`decoded.get("1")`
must be a dict whose `"2"` is a non-empty list of entries). -/
def listings_of_decoded (frame_offset server_seq : Nat)
    (decoded : List (String × JValue)) : List Listing :=
  match objGet decoded "1" with
  | some (.obj inner) =>
    match objGet inner "2" with
    | some (.arr entries) =>
        entries.filterMap (listing_of_entry frame_offset server_seq)
    | _ => []
  | _ => []

/-- The byte-by-byte `0x0A` scan inside one decompressed nested stream,
fuelled (the cursor strictly advances each iteration). -/
def scan_listings (bo : BbpbOracle) (nested : Bytes)
    (frame_offset server_seq : Nat) : Nat → Nat → List Listing → List Listing
  | 0, _, acc => acc
  | fuel + 1, idx, acc =>
    if idx < nested.length then
      if byteAt nested idx ≠ 0x0A then
        scan_listings bo nested frame_offset server_seq fuel (idx + 1) acc
      else
        match read_varint nested (idx + 1) with
        | none => scan_listings bo nested frame_offset server_seq fuel (idx + 1) acc
        | some (msg_len, next_idx) =>
          if next_idx + msg_len > nested.length then acc
          else
            let segment := slice nested idx (next_idx + msg_len)
            match bo segment with
            | none =>
                scan_listings bo nested frame_offset server_seq fuel
                  (next_idx + msg_len) acc
            | some decoded =>
                scan_listings bo nested frame_offset server_seq fuel
                  (next_idx + msg_len)
                  (acc ++ listings_of_decoded frame_offset server_seq decoded)
    else acc

/-- The per-frame body of `extract_listing_blocks`; a raised `ZstdError`
from the decompression fallback aborts the whole extraction. -/
def extract_go (z1 z2 : ZOneShot) (bo : BbpbOracle) :
    List TcFrame → List Listing → Except Unit (List Listing)
  | [], acc => .ok acc
  | f :: rest, acc =>
    if f.fragment_type = 0x0006 ∧ 4 < f.body.length then
      let server_seq := be32 f.body 0
      match tc_maybe_decompress z1 z2 (f.body.drop 4) f.is_zstd with
      | .error e => .error e
      | .ok nested =>
          if nested = [] then extract_go z1 z2 bo rest acc
          else extract_go z1 z2 bo rest
            (scan_listings bo nested f.offset server_seq
              (nested.length + 1) 0 acc)
    else extract_go z1 z2 bo rest acc

/-- `extract_listing_blocks(data)`. -/
def extract_listing_blocks (z1 z2 : ZOneShot) (bo : BbpbOracle)
    (data : Bytes) : Except Unit (List Listing) :=
  extract_go z1 z2 bo (tc_iter_frames data) []

/-- `ItemRecord` of `item_catalog.py` (fields used by `to_dict`). -/
structure ItemRecord where
  item_id : Int
  name : String
  icon : Option String
deriving Repr, DecidableEq

/-- `if resolved.icon:` — truthiness of the optional icon string. -/
def iconTruthy : Option String → Bool
  | none => false
  | some s => s ≠ ""

/-- The dict returned by `Listing.to_dict(resolver)`: `item_name` and
`metadata.item_icon` are optional keys (`none` = key absent). -/
structure ListingDict where
  price_luno : Int
  quantity : Int
  item_id : Option Int
  item_name : Option String
  md_frame_offset : Nat
  md_server_sequence : Nat
  md_raw_entry : JValue
  md_item_icon : Option String
deriving Repr

/-- `Listing.to_dict(resolver)`. -/
def Listing.to_dict (l : Listing) (resolver : Option (Int → Option ItemRecord)) :
    ListingDict :=
  let base : ListingDict :=
    { price_luno := l.price_luno
      quantity := l.quantity
      item_id := l.item_config_id
      item_name := none
      md_frame_offset := l.frame_offset
      md_server_sequence := l.server_sequence
      md_raw_entry := l.raw_entry
      md_item_icon := none }
  match resolver, l.item_config_id with
  | some res, some iid =>
    match res iid with
    | some rec =>
        { base with item_name := some rec.name
                    md_item_icon := if iconTruthy rec.icon then rec.icon else none }
    | none => base
  | _, _ => base

/-- The dedup key `(entry.item_config_id, entry.price_luno, entry.quantity)`. -/
def listingKey (l : Listing) : Option Int × Int × Int :=
  (l.item_config_id, l.price_luno, l.quantity)

/-- The `OrderedDict.setdefault` accumulation of `consolidate`. -/
def consolidate_go (acc : List ((Option Int × Int × Int) × Listing)) :
    List Listing → List ((Option Int × Int × Int) × Listing)
  | [] => acc
  | l :: rest =>
      if (listingKey l) ∈ acc.map Prod.fst then consolidate_go acc rest
      else consolidate_go (acc ++ [(listingKey l, l)]) rest

/-- `consolidate(listings, resolver)`. -/
def consolidate (listings : List Listing)
    (resolver : Option (Int → Option ItemRecord)) : List ListingDict :=
  (consolidate_go [] listings).map (fun p => p.2.to_dict resolver)

/-- Modelled from the spec (§4.6): keep the first `Listing` of each dedup
key, preserving the insertion order of first-seen keys.  Used as the
specification side of the consolidation claim. -/
def firstOccurrences : List Listing → List Listing → List Listing
  | acc, [] => acc
  | acc, l :: rest =>
      if (listingKey l) ∈ acc.map listingKey then firstOccurrences acc rest
      else firstOccurrences (acc ++ [l]) rest

/-! ## DPS reducer (`combat_reduce.py`) -/

/-- Python `int(s)` on a string: optional surrounding whitespace, an
optional sign, then decimal digits with single underscores between
digits; anything else raises (here: `none`). -/
def pyStrToInt (s : String) : Option Int :=
  let cs := s.trim.data
  let core : List Char × Bool :=
    match cs with
    | '+' :: rest => (rest, false)
    | '-' :: rest => (rest, true)
    | rest => (rest, false)
  let ds := core.1
  let ok : Bool :=
    ¬ds.isEmpty &&
    ds.all (fun c => c.isDigit || c == '_') &&
    (match ds.head? with | some c => c.isDigit | none => false) &&
    (match ds.getLast? with | some c => c.isDigit | none => false) &&
    (ds.zip ds.tail).all (fun p => ¬(p.1 == '_' && p.2 == '_'))
  if ok then
    let v : Nat := ds.foldl (fun a c => if c.isDigit then a * 10 + (c.toNat - 48) else a) 0
    some (if core.2 then -(v : Int) else (v : Int))
  else none

/-- `_parse_int(value)` of `combat_reduce.py` (tolerant int parser);
the argument is `d.get(key)`, so `none` is a missing key / `None`. -/
def parse_int : Option JValue → Option Int
  | none => none
  | some .null => none
  | some (.bool b) => some (if b then 1 else 0)
  | some (.int n) => some n
  | some (.str s) => if s = "" then none else pyStrToInt s
  | some (.arr _) => none
  | some (.obj _) => none

/-- Python `a or b` on `Optional[int]` values (`None` and `0` are falsy). -/
def falsyOr (a b : Option Int) : Option Int :=
  match a with
  | none => b
  | some 0 => b
  | some n => some n

/-- `Bucket` dataclass. -/
structure Bucket where
  damage : Int := 0
  hits : Nat := 0
  crits : Nat := 0
deriving Repr, DecidableEq

/-- `defaultdict(Bucket)` access-and-accumulate: buckets are keyed by
string, created on first touch (insertion order preserved). -/
def bucketAdd (key : String) (dmg : Int) (crit : Bool) :
    List (String × Bucket) → List (String × Bucket)
  | [] => [(key, { damage := dmg, hits := 1, crits := if crit then 1 else 0 })]
  | (k, b) :: rest =>
      if k == key then
        (k, { damage := b.damage + dmg, hits := b.hits + 1,
              crits := b.crits + (if crit then 1 else 0) }) :: rest
      else (k, b) :: bucketAdd key dmg crit rest

/-- `CombatReducer` state. -/
structure CombatReducer where
  total_damage : Int := 0
  hits : Nat := 0
  crits : Nat := 0
  player_uuid : Option Int := none
  current_server_time_ms : Option Int := none
  start_time_ms : Option Int := none
  end_time_ms : Option Int := none
  skill_buckets : List (String × Bucket) := []
  target_buckets : List (String × Bucket) := []
deriving Repr

/-- The damage-value selection chain of `_process_damage`:
`_parse_int(actual_value) or _parse_int(value) or _parse_int(hp_lessen_value)
or _parse_int(lucky_value)`. -/
def damage_chain (damage : List (String × JValue)) : Option Int :=
  falsyOr (parse_int (objGet damage "actual_value"))
    (falsyOr (parse_int (objGet damage "value"))
      (falsyOr (parse_int (objGet damage "hp_lessen_value"))
        (parse_int (objGet damage "lucky_value"))))

/-- The attribution filter: skip when both `player_uuid` and
`attacker_uuid` are known and differ. -/
def attrSkip (player attacker : Option Int) : Bool :=
  match player, attacker with
  | some p, some a => a ≠ p
  | _, _ => false

/-- `skill_id = _parse_int(owner_id) or _parse_int(hit_event_id)`. -/
def skill_id_of (damage : List (String × JValue)) : Option Int :=
  falsyOr (parse_int (objGet damage "owner_id"))
    (parse_int (objGet damage "hit_event_id"))

/-- `damage_type == "E_DAMAGE_TYPE_HEAL"` (the equality is false for
non-string values). -/
def isHealType : Option JValue → Bool
  | some (.str t) => t == "E_DAMAGE_TYPE_HEAL"
  | _ => false

/-- The timing block of `_process_damage`: when a server time sync has
been seen, initialise `start_time_ms` on the first credit and advance
`end_time_ms` on every credit. -/
def apply_timing (s : CombatReducer) : CombatReducer :=
  match s.current_server_time_ms with
  | none => s
  | some t =>
    { s with
      start_time_ms := match s.start_time_ms with
                       | none => some t
                       | some st => some st
      end_time_ms := some t }

/-- The skill-bucket block of `_process_damage`. -/
def apply_skill (damage : List (String × JValue)) (v : Int) (crit : Bool)
    (s : CombatReducer) : CombatReducer :=
  match skill_id_of damage with
  | none => s
  | some sk =>
    { s with skill_buckets := bucketAdd (toString sk) v crit s.skill_buckets }

/-- The target-bucket block of `_process_damage`. -/
def apply_target (target_uuid : Option Int) (v : Int) (crit : Bool)
    (s : CombatReducer) : CombatReducer :=
  match target_uuid with
  | none => s
  | some tu =>
    { s with target_buckets := bucketAdd (toString tu) v crit s.target_buckets }

/-- `CombatReducer._process_damage(damage, target_uuid)`. -/
def process_damage (s : CombatReducer) (damage : List (String × JValue))
    (target_uuid : Option Int) : CombatReducer :=
  if isHealType (objGet damage "type") then s
  else if optTruthy (objGet damage "is_miss") then s
  else if attrSkip s.player_uuid (parse_int (objGet damage "attacker_uuid")) then s
  else
    match damage_chain damage with
    | none => s
    | some v =>
      if v ≤ 0 then s
      else
        let crit := optTruthy (objGet damage "is_crit")
        apply_target target_uuid v crit
          (apply_skill damage v crit
            (apply_timing
              { s with
                total_damage := s.total_damage + v
                hits := s.hits + 1
                crits := s.crits + (if crit then 1 else 0) }))

/-- `CombatReducer._process_delta(delta)` for a dict delta (non-dict
deltas never reach this call in the source, or would raise). -/
def process_delta (s : CombatReducer) (delta : List (String × JValue)) :
    CombatReducer :=
  match objGet delta "skill_effects" with
  | some (.obj se) =>
    let damages : List JValue :=
      match objGet se "damages" with
      | some (.arr xs) => xs
      | _ => []
    let target_uuid := parse_int (objGet delta "uuid")
    damages.foldl
      (fun acc d =>
        match d with
        | .obj kvs => process_damage acc kvs target_uuid
        | _ => acc) s
  | _ => s

/-- `CombatReducer._update_server_time(data)`. -/
def update_server_time (s : CombatReducer) (data : List (String × JValue)) :
    CombatReducer :=
  match falsyOrNone (parse_int (objGet data "server_milliseconds"))
      (parse_int (objGet data "client_milliseconds")) with
  | some t => { s with current_server_time_ms := some t }
  | none => s
where
  /-- `server_ms if server_ms is not None else client_ms` (unlike `or`,
  zero does not fall through here). -/
  falsyOrNone (a b : Option Int) : Option Int :=
    match a with
    | none => b
    | some n => some n

/-- `CombatReducer._update_player_uuid(data)`. -/
def update_player_uuid (s : CombatReducer) (data : List (String × JValue)) :
    CombatReducer :=
  match objGet data "delta_info" with
  | some (.obj d) =>
    match parse_int (objGet d "uuid") with
    | some u => { s with player_uuid := some u }
    | none =>
      match objGet d "base_delta" with
      | some (.obj bd) =>
        match parse_int (objGet bd "uuid") with
        | some u => { s with player_uuid := some u }
        | none => s
      | _ => s
  | _ => s

/-- One iteration of `process_records`: dispatch a parsed JSONL record on
its `message_type`. -/
def record_step (s : CombatReducer) (r : JValue) : CombatReducer :=
  match r with
  | .obj kvs =>
    let data : List (String × JValue) :=
      match objGet kvs "data" with
      | some (.obj d) => d
      | _ => []
    match objGet kvs "message_type" with
    | some (.str mt) =>
      if mt == "blueprotobuf_package.SyncServerTime" then
        update_server_time s data
      else if mt == "blueprotobuf_package.SyncToMeDeltaInfo" then
        let s1 := update_player_uuid s data
        let base_delta : List (String × JValue) :=
          match objGet data "delta_info" with
          | some (.obj d) =>
            match objGet d "base_delta" with
            | some (.obj bd) => bd
            | _ => []
          | _ => []
        process_delta s1 base_delta
      else if mt == "blueprotobuf_package.SyncNearDeltaInfo" then
        let deltas : List JValue :=
          match objGet data "delta_infos" with
          | some (.arr xs) => xs
          | _ => []
        deltas.foldl
          (fun acc d =>
            match d with
            | .obj kv => process_delta acc kv
            | _ => acc) s
      else s
    | _ => s
  | _ => s

/-- `CombatReducer().process_records(lines)` over already-parsed JSONL
records. -/
def process_records (s : CombatReducer) (records : List JValue) : CombatReducer :=
  records.foldl record_step s

/-- Truthy non-iterable values (`int ≠ 0`, `True`) raise `TypeError` when
iterated; records containing them in an iterated position crash the
Python reducer and are excluded from well-formedness. -/
def iterSafe : Option JValue → Bool
  | some (.int n) => n = 0
  | some (.bool b) => ¬b
  | _ => true

/-- A delta dict whose `skill_effects.damages` can be iterated safely. -/
def deltaSafe (d : List (String × JValue)) : Bool :=
  match objGet d "skill_effects" with
  | some (.obj se) => iterSafe (objGet se "damages")
  | _ => true

/-- Records on which the Python reducer runs without raising: a dict
whose `data` is a dict (or absent), whose `delta_info.base_delta` is a
dict when present, and whose iterated fields are lists (or skippable). -/
def wf_record : JValue → Bool
  | .obj kvs =>
    (match objGet kvs "data" with
     | none => true
     | some (.obj d) =>
       (match objGet d "delta_info" with
        | some (.obj di) =>
          (match objGet di "base_delta" with
           | some (.obj bd) => deltaSafe bd
           | none => true
           | some _ => false)
        | _ => true) &&
       iterSafe (objGet d "delta_infos") &&
       (match objGet d "delta_infos" with
        | some (.arr xs) =>
          xs.all (fun x => match x with | .obj dk => deltaSafe dk | _ => true)
        | _ => true)
     | some _ => false)
  | _ => false

/-! ### Crediting characterisation

`total_damage` crediting depends on the reducer state only through
`player_uuid`; these functions compute the credited amounts and the
`player_uuid` evolution as pure functions of the records. -/

/-- The amount `_process_damage` adds to `total_damage`. -/
def damage_credit (player : Option Int) (damage : List (String × JValue)) : Int :=
  if isHealType (objGet damage "type") then 0
  else if optTruthy (objGet damage "is_miss") then 0
  else if attrSkip player (parse_int (objGet damage "attacker_uuid")) then 0
  else
    match damage_chain damage with
    | none => 0
    | some v => if v ≤ 0 then 0 else v

/-- Total credit of a `damages` list (non-dict entries are skipped). -/
def damages_credit (player : Option Int) : List JValue → Int
  | [] => 0
  | d :: rest =>
      (match d with | .obj kvs => damage_credit player kvs | _ => 0) +
        damages_credit player rest

/-- Total credit of one delta dict. -/
def delta_credit (player : Option Int) (delta : List (String × JValue)) : Int :=
  match objGet delta "skill_effects" with
  | some (.obj se) =>
      damages_credit player
        (match objGet se "damages" with | some (.arr xs) => xs | _ => [])
  | _ => 0

/-- Total credit of a `delta_infos` list (non-dict entries skipped). -/
def deltas_credit (player : Option Int) : List JValue → Int
  | [] => 0
  | d :: rest =>
      (match d with | .obj kv => delta_credit player kv | _ => 0) +
        deltas_credit player rest

/-- The `player_uuid` after `_update_player_uuid(data)` (a pure function
of the previous value and the record). -/
def uuid_update (player : Option Int) (data : List (String × JValue)) : Option Int :=
  match objGet data "delta_info" with
  | some (.obj d) =>
    match parse_int (objGet d "uuid") with
    | some u => some u
    | none =>
      match objGet d "base_delta" with
      | some (.obj bd) =>
        match parse_int (objGet bd "uuid") with
        | some u => some u
        | none => player
      | _ => player
  | _ => player

/-- The amount one record adds to `total_damage`, given the current
`player_uuid` (for `SyncToMeDeltaInfo` the uuid is updated first, as in
the source). -/
def record_credit (player : Option Int) (r : JValue) : Int :=
  match r with
  | .obj kvs =>
    let data : List (String × JValue) :=
      match objGet kvs "data" with
      | some (.obj d) => d
      | _ => []
    match objGet kvs "message_type" with
    | some (.str mt) =>
      if mt == "blueprotobuf_package.SyncServerTime" then 0
      else if mt == "blueprotobuf_package.SyncToMeDeltaInfo" then
        delta_credit (uuid_update player data)
          (match objGet data "delta_info" with
           | some (.obj d) =>
             match objGet d "base_delta" with
             | some (.obj bd) => bd
             | _ => []
           | _ => [])
      else if mt == "blueprotobuf_package.SyncNearDeltaInfo" then
        deltas_credit player
          (match objGet data "delta_infos" with | some (.arr xs) => xs | _ => [])
      else 0
    | _ => 0
  | _ => 0

/-- The `player_uuid` after one record. -/
def record_uuid (player : Option Int) (r : JValue) : Option Int :=
  match r with
  | .obj kvs =>
    let data : List (String × JValue) :=
      match objGet kvs "data" with
      | some (.obj d) => d
      | _ => []
    match objGet kvs "message_type" with
    | some (.str mt) =>
      if mt == "blueprotobuf_package.SyncServerTime" then player
      else if mt == "blueprotobuf_package.SyncToMeDeltaInfo" then
        uuid_update player data
      else player
    | _ => player
  | _ => player

/-- The `player_uuid` after a record list. -/
def records_uuid (player : Option Int) : List JValue → Option Int
  | [] => player
  | r :: rest => records_uuid (record_uuid player r) rest

/-- The total credit of a record list, threading the uuid evolution. -/
def records_credit (player : Option Int) : List JValue → Int
  | [] => 0
  | r :: rest =>
      record_credit player r + records_credit (record_uuid player r) rest

/-! ## Combat decoders (`combat_decode.py`, `combat_decode_v2.py`) -/

/-- `SERVICE_UID = 0x0000000063335342`. -/
def SERVICE_UID : Nat := 0x0000000063335342

/-- `_METHOD_TO_MESSAGE` dispatch table. -/
def methodToMessage (m : Nat) : Option String :=
  if m = 0x00000006 then some "blueprotobuf_package.SyncNearEntities"
  else if m = 0x00000015 then some "blueprotobuf_package.SyncContainerData"
  else if m = 0x00000016 then some "blueprotobuf_package.SyncContainerDirtyData"
  else if m = 0x0000002B then some "blueprotobuf_package.SyncServerTime"
  else if m = 0x0000002D then some "blueprotobuf_package.SyncNearDeltaInfo"
  else if m = 0x0000002E then some "blueprotobuf_package.SyncToMeDeltaInfo"
  else none

/-- Produce `k` lowercase hex digits of `m`, least significant last. -/
def hexDigits : Nat → Nat → List Char → List Char
  | 0, _, acc => acc
  | k + 1, m, acc =>
      let d := m % 16
      let c := if d < 10 then Char.ofNat (48 + d) else Char.ofNat (87 + d)
      hexDigits k (m / 16) (c :: acc)

/-- `f"0x{uid:016x}"`. -/
def hex16 (n : Nat) : String :=
  "0x" ++ String.mk (hexDigits 16 n [])

/-- `DecodedRecord` dataclass. -/
structure DecodedRecord where
  service_uid : String
  stub_id : Nat
  method_id : Nat
  message_type : String
  data : JValue
deriving Repr

/-- Oracle abstracting `message_cls().ParseFromString(payload)` followed
by `MessageToDict(...)`: keyed by the message type name; `error` is a
raised `google.protobuf` `DecodeError`. -/
abbrev ProtoParseOracle := String → Bytes → Except Unit JValue

/-- `CombatDecoder.decode(frame)`.  `ParseFromString` has no handler, so
a parse error propagates out of `decode` (`Except.error`). -/
def combat_decode (parseO : ProtoParseOracle) (frame : NotifyFrame) :
    Except Unit (Option DecodedRecord) :=
  if frame.service_uid ≠ SERVICE_UID then .ok none
  else
    match methodToMessage frame.method_id with
    | none => .ok none
    | some message_name =>
      match parseO message_name frame.payload with
      | .error e => .error e
      | .ok data =>
          .ok (some { service_uid := hex16 frame.service_uid
                      stub_id := frame.stub_id
                      method_id := frame.method_id
                      message_type := message_name
                      data := data })

/-- `CombatDecoderV2.decode(frame)`: `specResolve` abstracts the mapping
lookup plus `_resolve_message` (a `some` is a resolved static message
class, as a message-type name and a parse oracle); on that path a
`DecodeError` is caught (`except DecodeError: pass`) — but control then
falls through to `self._fallback.decode(frame)`, the v1 decoder. -/
def combat_decode_v2
    (specResolve : Nat → Option (String × (Bytes → Except Unit JValue)))
    (fallbackParse : ProtoParseOracle) (frame : NotifyFrame) :
    Except Unit (Option DecodedRecord) :=
  if frame.service_uid ≠ SERVICE_UID then .ok none
  else
    match specResolve frame.method_id with
    | some (mname, parse) =>
      match parse frame.payload with
      | .ok data =>
          .ok (some { service_uid := hex16 frame.service_uid
                      stub_id := frame.stub_id
                      method_id := frame.method_id
                      message_type := mname
                      data := data })
      | .error _ => combat_decode fallbackParse frame
    | none => combat_decode fallbackParse frame

/-! ## Specification-side definitions

These follow the wording of the claims/spec, to be compared against the
source-derived definitions above. -/

/-- Modelled from the claim wording (C5): the first positive integer
among the parsed fields, where a missing, unparsable or non-positive
field falls through to the next one. -/
def spec_first_positive_aux : List (Option Int) → Option Int
  | [] => none
  | none :: rest => spec_first_positive_aux rest
  | some v :: rest => if 0 < v then some v else spec_first_positive_aux rest

/-- Modelled from the claim wording (C5), applied to the four damage
fields in order. -/
def spec_first_positive (damage : List (String × JValue)) : Option Int :=
  spec_first_positive_aux
    [parse_int (objGet damage "actual_value"),
     parse_int (objGet damage "value"),
     parse_int (objGet damage "hp_lessen_value"),
     parse_int (objGet damage "lucky_value")]

/-- A framing miss at position `j` of `b`: the declared length is below
the 6-byte header size or the frame would run past the buffer end — the
framer slides one byte and counts a resync. -/
def misfireAt (b : Bytes) (j : Nat) : Prop :=
  be32 b j < 6 ∨ b.length < j + be32 b j

instance (b : Bytes) (j : Nat) : Decidable (misfireAt b j) := by
  unfold misfireAt
  infer_instance

/-- The schema-relevant fields of a `NotifyFrame` — everything except the
diagnostic `offset`. -/
def NotifyFrame.scrub (f : NotifyFrame) : Nat × Nat × Nat × Bytes × Bool :=
  (f.service_uid, f.stub_id, f.method_id, f.payload, f.was_compressed)

/-- A nesting tower for the depth claim: `mkNest 0` is empty and
`mkNest (i+1)` is one FrameDown frame (length `10*(i+1)`, fragment type
6, server sequence 0) whose nested stream is `mkNest i`. -/
def mkNest : Nat → Bytes
  | 0 => []
  | i + 1 => [0, 0, 0, 10 * (i + 1), 0, 6, 0, 0, 0, 0] ++ mkNest i

/-- Decompression oracle for captures without compressed payloads: any
zstd call fails (never reached when no frame carries the flag and the
magic). -/
def failZo : ZChunkOracle := fun _ => .error ()

/-! ## C2 — one FrameDown frame with body `"ab"` -/

/-- The input of the concrete scenario: `00 00 00 08 00 06 61 62`. -/
def c2buf : Bytes := [0x00, 0x00, 0x00, 0x08, 0x00, 0x06, 0x61, 0x62]

/-- A damage entry whose first field parses negative: `actual_value=-1`,
`value=100`. -/
def c5dmg : List (String × JValue) :=
  [("actual_value", .int (-1)), ("value", .int 100)]

/-- A `SyncNearDeltaInfo` record crediting 100 damage from attacker 9
(credited while `player_uuid` is unset). -/
def c6near : JValue :=
  .obj [("message_type", .str "blueprotobuf_package.SyncNearDeltaInfo"),
        ("data", .obj [("delta_infos", .arr
          [.obj [("uuid", .int 5),
                 ("skill_effects", .obj [("damages", .arr
                   [.obj [("attacker_uuid", .int 9), ("value", .int 100)]])])]])])]

/-- A `SyncToMeDeltaInfo` record establishing `player_uuid = 7`. -/
def c6tome : JValue :=
  .obj [("message_type", .str "blueprotobuf_package.SyncToMeDeltaInfo"),
        ("data", .obj [("delta_info", .obj [("uuid", .int 7)])])]

/-- A decoded-combat document whose damage precedes the player id. -/
def c6doc : List JValue := [c6near, c6tome]

/-- A listing entry whose item details carry a non-integer `"2"`. -/
def c7entry : JValue :=
  .obj [("1", .int 5), ("2", .int 2), ("3", .obj [("2", .str "x")])]

/-- A decoded listing block containing `c7entry`. -/
def c7tree : List (String × JValue) :=
  [("1", .obj [("2", .arr [c7entry])])]

/-- One FrameDown frame (server sequence 1) whose nested stream is the
two bytes `0A 00`: a `0x0A` tag with a zero-length message. -/
def c7data : Bytes := [0, 0, 0, 12, 0, 6, 0, 0, 0, 1, 0x0A, 0x00]

/-- The `Listing` the extractor emits for `c7entry`: well-typed price
and quantity, but `item_config_id = none`. -/
def c7listing : Listing :=
  { frame_offset := 0, server_sequence := 1, price_luno := 5, quantity := 2,
    item_config_id := none, raw_entry := c7entry }

/-- A valid 22-byte buffer: one Notify frame (length 22, fragment 2)
with a 16-byte body of zeros and an empty payload. -/
def c3B : Bytes :=
  [0, 0, 0, 22, 0, 2,
   0, 0, 0, 0, 0, 0, 0, 0,
   0, 0, 0, 0,
   0, 0, 0, 0]

/-- Six garbage bytes that happen to declare a plausible frame: length
28 (the whole of `c3G ++ c3B`) and fragment type 2. -/
def c3G : Bytes := [0, 0, 0, 28, 0, 2]

/-- The shape invariant every emitted `Listing` actually satisfies:
integer price and quantity from the entry, a dict `"3"` whose key `"2"`
is present, and `item_config_id` equal to the integer reading of that
value (None when it is not an integer). -/
def listing_wf (l : Listing) : Prop :=
  ∃ e : List (String × JValue), l.raw_entry = .obj e ∧
    pyIsInt (objGet e "1") = some l.price_luno ∧
    pyIsInt (objGet e "2") = some l.quantity ∧
    ∃ d : List (String × JValue), objGet e "3" = some (.obj d) ∧
      (objGet d "2").isSome = true ∧
      l.item_config_id = pyIsInt (objGet d "2")

/-- C2 counterexample: on `00 00 00 08 00 06 61 62` the framer's
`resync_events` counter is not 0 — the FrameDown body `"ab"` is shorter
than the 4-byte server sequence and `_parse_stream` counts one resync
for it, refuting the claimed `resync_events=0`. -/
theorem c2_resync_not_zero :
    (iter_notify_frames failZo 10 c2buf).2.resync_events ≠ 0 := by decide

/-- C2 (amended): on `00 00 00 08 00 06 61 62` the framer yields no
frames and finishes with `frames_parsed = 1`, `notify_frames = 0` and
`resync_events = 1` (the malformed FrameDown body counts one resync). -/
theorem c2_short_framedown_counters :
    (iter_notify_frames failZo 10 c2buf).1 = [] ∧
    (iter_notify_frames failZo 10 c2buf).2.frames_parsed = 1 ∧
    (iter_notify_frames failZo 10 c2buf).2.notify_frames = 0 ∧
    (iter_notify_frames failZo 10 c2buf).2.resync_events = 1 := by
  refine ⟨rfl, by decide, by decide, by decide⟩

/-! ## C9 — recursion depth -/

/-- C9 counterexample: a 100-byte capture with ten uncompressed nesting
levels of FrameDown drives `_parse_stream` to recursion depth 10 — there
is no defensive cap at 8 levels. -/
theorem c9_depth_exceeds_eight :
    8 < (iter_notify_frames failZo 100 (mkNest 10)).2.max_depth := by decide

/-- `_maybe_decompress` never changes the recursion-depth instrumentation. -/
theorem framer_maybe_decompress_max_depth (zo : ZChunkOracle) (data : Bytes)
    (fl : Bool) (st : FramerSt) :
    (framer_maybe_decompress zo data fl st).2.2.max_depth = st.max_depth := by
  unfold framer_maybe_decompress
  repeat' split
  all_goals rfl

/-- When every zstd call fails, `_maybe_decompress` returns its input. -/
theorem framer_maybe_decompress_fail (zo : ZChunkOracle)
    (h : ∀ x, zo x = .error ()) (data : Bytes) (fl : Bool) (st : FramerSt) :
    (framer_maybe_decompress zo data fl st).1 = data := by
  unfold framer_maybe_decompress
  split
  · rfl
  split
  · rfl
  split
  · rfl
  · rename_i cs hcs
    rw [h data] at hcs
    cases hcs

/-- `_parse_notify` never changes the recursion-depth instrumentation. -/
theorem parse_notify_max_depth (zo : ZChunkOracle) (body : Bytes) (z : Bool)
    (off : Nat) (st : FramerSt) :
    (parse_notify zo body z off st).2.max_depth = st.max_depth := by
  unfold parse_notify
  split
  · rfl
  · exact framer_maybe_decompress_max_depth zo (body.drop 16) z st

/-- Nat division fact used for the nesting-depth bound: consuming the
10 bytes of header + server sequence lowers the `n / 10` budget by one. -/
theorem div10_step {n m : Nat} (hm : m ≤ n - 10) (hn : 10 ≤ n) :
    m / 10 + 1 ≤ n / 10 := by
  rw [Nat.le_div_iff_mul_le (by norm_num : 0 < 10)]
  have := Nat.div_mul_le_self m 10
  omega

/-- Equation form of `parse_notify_max_depth`, for rewriting with a
destructured result. -/
theorem parse_notify_max_depth_eq {zo : ZChunkOracle} {body : Bytes} {z : Bool}
    {off : Nat} {st : FramerSt} {onf : Option NotifyFrame} {st2 : FramerSt}
    (hp : parse_notify zo body z off st = (onf, st2)) :
    st2.max_depth = st.max_depth := by
  have h1 := parse_notify_max_depth zo body z off st
  rw [hp] at h1
  exact h1

/-- Equation form of `framer_maybe_decompress_max_depth`. -/
theorem framer_maybe_decompress_max_depth_eq {zo : ZChunkOracle} {data : Bytes}
    {fl : Bool} {st : FramerSt} {out : Bytes} {b : Bool} {st2 : FramerSt}
    (hp : framer_maybe_decompress zo data fl st = (out, b, st2)) :
    st2.max_depth = st.max_depth := by
  have h1 := framer_maybe_decompress_max_depth zo data fl st
  rw [hp] at h1
  exact h1

/-- Equation form of `framer_maybe_decompress_fail`. -/
theorem framer_maybe_decompress_fail_eq {zo : ZChunkOracle}
    (h : ∀ x, zo x = .error ()) {data : Bytes} {fl : Bool} {st : FramerSt}
    {out : Bytes} {b : Bool} {st2 : FramerSt}
    (hp : framer_maybe_decompress zo data fl st = (out, b, st2)) :
    out = data := by
  have h1 := framer_maybe_decompress_fail zo h data fl st
  rw [hp] at h1
  exact h1

/-- `slice` length. -/
theorem slice_length (b : Bytes) (s e : Nat) :
    (slice b s e).length = min (e - s) (b.length - s) := by
  simp [slice]

/-- C9 (amended) core bound: when no zstd decompression ever succeeds
(so a nested stream is always a strict sub-slice of its parent frame,
at least 10 bytes shorter), the recursion depth of `_parse_stream` on a
buffer slice never exceeds the entry depth plus `(remaining bytes)/10`. -/
theorem parse_stream_depth_bound (zo : ZChunkOracle) (h : ∀ x, zo x = .error ()) :
    ∀ fuel buf offset depth st,
      (parse_stream zo fuel buf offset depth st).2.max_depth ≤
        max st.max_depth (depth + (buf.length - offset) / 10) := by
  intro fuel
  induction fuel with
  | zero =>
    intro buf offset depth st
    simp [parse_stream]
  | succ f ih =>
    intro buf offset depth st
    rw [parse_stream]
    by_cases h6 : offset + 6 ≤ buf.length
    case neg => rw [if_neg h6]; exact le_max_left _ _
    rw [if_pos h6]
    dsimp only
    have hmono : ∀ a b : Nat, a ≤ b →
        depth + (buf.length - b) / 10 ≤ depth + (buf.length - a) / 10 :=
      fun a b hab => Nat.add_le_add_left
        (Nat.div_le_div_right (Nat.sub_le_sub_left hab buf.length)) depth
    by_cases hlt : be32 buf offset < 6
    case pos =>
      rw [if_pos hlt]
      refine le_trans (ih buf (offset + 1) depth st.bumpResync) ?_
      exact max_le_max le_rfl (hmono offset (offset + 1) (Nat.le_succ offset))
    rw [if_neg hlt]
    by_cases hend : offset + be32 buf offset > buf.length
    case pos =>
      rw [if_pos hend]
      refine le_trans (ih buf (offset + 1) depth st.bumpResync) ?_
      exact max_le_max le_rfl (hmono offset (offset + 1) (Nat.le_succ offset))
    rw [if_neg hend]
    have hoff : offset ≤ offset + be32 buf offset := Nat.le_add_right _ _
    by_cases hfrag : be16 buf (offset + 4) &&& 0x7FFF = 0x0002
    case pos =>
      rw [if_pos hfrag]
      rcases hpn : parse_notify zo (slice buf (offset + 6) (offset + be32 buf offset))
          (decide (¬be16 buf (offset + 4) &&& 0x8000 = 0)) offset
          { st with frames_parsed := st.frames_parsed + 1,
                    fragment_histogram := fun t =>
                      if t = be16 buf (offset + 4) &&& 0x7FFF then
                        st.fragment_histogram t + 1
                      else st.fragment_histogram t } with ⟨onf, st2⟩
      have hst2 : st2.max_depth = st.max_depth := by
        have h1 := parse_notify_max_depth_eq hpn
        exact h1
      cases onf with
      | some nf =>
        refine le_trans
          (ih buf (offset + be32 buf offset) depth
            { st2 with notify_frames := st2.notify_frames + 1 }) ?_
        exact max_le_max (le_of_eq hst2) (hmono offset _ hoff)
      | none =>
        refine le_trans (ih buf (offset + be32 buf offset) depth st2) ?_
        exact max_le_max (le_of_eq hst2) (hmono offset _ hoff)
    rw [if_neg hfrag]
    by_cases hfd : be16 buf (offset + 4) &&& 0x7FFF = 0x0006
    case neg =>
      rw [if_neg hfd]
      refine le_trans (ih buf (offset + be32 buf offset) depth _) ?_
      exact max_le_max le_rfl (hmono offset _ hoff)
    rw [if_pos hfd]
    by_cases hb4 : 4 ≤ (slice buf (offset + 6) (offset + be32 buf offset)).length
    case neg =>
      rw [if_neg hb4]
      refine le_trans (ih buf (offset + be32 buf offset) depth _) ?_
      refine max_le_max (le_of_eq ?_) (hmono offset _ hoff)
      rfl
    rw [if_pos hb4]
    rcases hd : framer_maybe_decompress zo
        ((slice buf (offset + 6) (offset + be32 buf offset)).drop 4)
        (decide (¬be16 buf (offset + 4) &&& 0x8000 = 0))
        { st with frames_parsed := st.frames_parsed + 1,
                  fragment_histogram := fun t =>
                    if t = be16 buf (offset + 4) &&& 0x7FFF then
                      st.fragment_histogram t + 1
                    else st.fragment_histogram t } with ⟨nested, wasb, st2⟩
    have hst2 : st2.max_depth = st.max_depth := by
      have h1 := framer_maybe_decompress_max_depth_eq hd
      exact h1
    have hnested : nested = (slice buf (offset + 6) (offset + be32 buf offset)).drop 4 :=
      framer_maybe_decompress_fail_eq h hd
    dsimp only
    by_cases hne : nested = []
    case pos =>
      rw [if_neg (by simp [hne])]
      refine le_trans (ih buf (offset + be32 buf offset) depth st2) ?_
      exact max_le_max (le_of_eq hst2) (hmono offset _ hoff)
    rw [if_pos (by simp [hne])]
    -- nested length bound: the slice is at most frame_len - 6 long, the
    -- drop of the 4 sequence bytes at most frame_len - 10
    have hbody : (slice buf (offset + 6) (offset + be32 buf offset)).length =
        be32 buf offset - 6 := by
      rw [slice_length]
      omega
    have hnlen : nested.length = be32 buf offset - 10 := by
      rw [hnested, List.length_drop, hbody]
      omega
    have hfl11 : 11 ≤ be32 buf offset := by
      have h1 : 1 ≤ nested.length := by
        cases hnn : nested with
        | nil => exact absurd hnn hne
        | cons a l => simp [hnn]
      omega
    have hrem : 10 ≤ buf.length - offset := by omega
    have hkey : depth + 1 + nested.length / 10 ≤ depth + (buf.length - offset) / 10 := by
      have := div10_step (n := buf.length - offset) (m := nested.length)
        (by omega) hrem
      omega
    have hd1 : depth + 1 ≤ depth + (buf.length - offset) / 10 := by
      have := div10_step (n := buf.length - offset) (m := 0) (by omega) hrem
      omega
    rcases hrn : parse_stream zo f nested 0 (depth + 1)
        { st2 with max_depth := max st2.max_depth (depth + 1) } with ⟨nfs, st3⟩
    have hrnb := ih nested 0 (depth + 1)
      { st2 with max_depth := max st2.max_depth (depth + 1) }
    rw [hrn] at hrnb
    dsimp only at hrnb ⊢
    refine le_trans (ih buf (offset + be32 buf offset) depth st3) ?_
    have hst3 : st3.max_depth ≤ max st.max_depth (depth + (buf.length - offset) / 10) := by
      refine le_trans hrnb (max_le (max_le ?_ ?_) ?_)
      · rw [hst2]
        exact le_max_left _ _
      · exact le_trans hd1 (le_max_right _ _)
      · rw [Nat.sub_zero]
        exact le_trans hkey (le_max_right _ _)
    exact max_le hst3 (le_trans (hmono offset _ hoff) (le_max_right _ _))

/-- C9 (amended): the framer imposes no fixed defensive depth cap (see
the counterexample reaching depth 10); instead, because every
uncompressed nesting level consumes a 6-byte header plus a 4-byte server
sequence of its parent, the recursion depth on a capture whose zstd
calls never succeed is bounded by `1 + len(buf)/10`. -/
theorem c9_depth_bounded_by_size (zo : ZChunkOracle) (fuel : Nat) (data : Bytes)
    (h : ∀ x, zo x = .error ()) :
    (iter_notify_frames zo fuel data).2.max_depth ≤ 1 + data.length / 10 := by
  refine le_trans (parse_stream_depth_bound zo h fuel data 0 1
    { bytes_scanned := data.length, max_depth := 1 }) ?_
  rw [Nat.sub_zero]
  refine max_le ?_ le_rfl
  show 1 ≤ 1 + data.length / 10
  omega

/-- Witness for `c9_depth_bounded_by_size` at the ten-level tower. -/
theorem c9_depth_bounded_by_size_witness :
    (iter_notify_frames failZo 100 (mkNest 10)).2.max_depth ≤
      1 + (mkNest 10).length / 10 :=
  c9_depth_bounded_by_size failZo 100 (mkNest 10) (fun _ => rfl)

/-! ## C1 — decompression bounds -/

/-- An accepted chunk list is returned unchanged. -/
theorem zstdCapLoop_eq (cap : Nat) :
    ∀ (cs : List Bytes) (t : Nat) (cs' : List Bytes),
      zstdCapLoop cap cs t = some cs' → cs' = cs := by
  intro cs
  induction cs with
  | nil =>
    intro t cs' h1
    rw [show zstdCapLoop cap [] t = some [] from rfl] at h1
    exact (Option.some.inj h1).symm
  | cons c rest ih =>
    intro t cs' h1
    simp only [zstdCapLoop] at h1
    split at h1
    · cases h1
    · rcases h2 : zstdCapLoop cap rest (t + c.length) with _ | rest'
      · rw [h2] at h1
        cases h1
      · rw [h2] at h1
        have h3 : c :: rest' = cs' := Option.some.inj h1
        rw [← h3, ih _ _ h2]

/-- An accepted non-empty chunk list keeps the running total within the cap. -/
theorem zstdCapLoop_le (cap : Nat) :
    ∀ (cs : List Bytes) (t : Nat) (cs' : List Bytes),
      zstdCapLoop cap cs t = some cs' →
      t + (cs.map List.length).sum ≤ cap ∨ cs = [] := by
  intro cs
  induction cs with
  | nil => intro t cs' _; exact Or.inr rfl
  | cons c rest ih =>
    intro t cs' h1
    simp only [zstdCapLoop] at h1
    split at h1
    · cases h1
    · rename_i hgt
      rcases h2 : zstdCapLoop cap rest (t + c.length) with _ | rest'
      · rw [h2] at h1
        cases h1
      · rcases ih _ _ h2 with h3 | h3
        · refine Or.inl ?_
          simp only [List.map_cons, List.sum_cons]
          omega
        · refine Or.inl ?_
          simp only [h3, List.map_cons, List.map_nil, List.sum_cons, List.sum_nil]
          omega

/-- When the cumulative output would exceed the cap, the loop aborts. -/
theorem zstdCapLoop_overflow (cap : Nat) :
    ∀ (cs : List Bytes) (t : Nat), cap < t + (cs.map List.length).sum → t ≤ cap →
      zstdCapLoop cap cs t = none := by
  intro cs
  induction cs with
  | nil =>
    intro t h1 h2
    simp only [List.map_nil, List.sum_nil, Nat.add_zero] at h1
    omega
  | cons c rest ih =>
    intro t h1 h2
    simp only [zstdCapLoop]
    split
    · rfl
    · rename_i hgt
      rw [ih (t + c.length) ?_ (by omega)]
      · rfl
      · simp only [List.map_cons, List.sum_cons] at h1
        omega

/-- C1 (amended): the framer's `_maybe_decompress` enforces the 10 MiB
output cap and the overflow/error fallback: successful decompression
never returns more than 10 MiB; whenever `was_decompressed` is false the
original bytes come back unchanged; a zstd error, or a chunk stream whose
total exceeds the cap, returns the original bytes with `was_decompressed
= false` and `resync_events` incremented.  (The trading extractor's
`maybe_decompress` does not share this property — see the
counterexample.) -/
theorem c1_framer_decompress_bounds (zo : ZChunkOracle) (data : Bytes)
    (flagged : Bool) (st : FramerSt) :
    ((framer_maybe_decompress zo data flagged st).2.1 = true →
      (framer_maybe_decompress zo data flagged st).1.length ≤ maxDecompressedSize) ∧
    ((framer_maybe_decompress zo data flagged st).2.1 = false →
      (framer_maybe_decompress zo data flagged st).1 = data) ∧
    (∀ e : Unit, flagged = true → data ≠ [] → hasMagic data = true →
      zo data = .error e →
      framer_maybe_decompress zo data flagged st = (data, false, st.bumpResync)) ∧
    (∀ cs : List Bytes, flagged = true → data ≠ [] → hasMagic data = true →
      zo data = .ok cs → maxDecompressedSize < (cs.map List.length).sum →
      framer_maybe_decompress zo data flagged st = (data, false, st.bumpResync)) := by
  unfold framer_maybe_decompress
  by_cases h1 : flagged = false ∨ data = []
  · rw [if_pos h1]
    refine ⟨?_, ?_, ?_, ?_⟩
    · intro hw
      cases hw
    · intro _
      rfl
    · intro e hfl hne hmag hzo
      exfalso
      rcases h1 with h | h
      · rw [hfl] at h; cases h
      · exact hne h
    · intro cs hfl hne hmag hzo hover
      exfalso
      rcases h1 with h | h
      · rw [hfl] at h; cases h
      · exact hne h
  rw [if_neg h1]
  by_cases h2 : hasMagic data = false
  · rw [if_pos h2]
    refine ⟨?_, ?_, ?_, ?_⟩
    · intro hw
      cases hw
    · intro _
      rfl
    · intro e hfl hne hmag hzo
      rw [hmag] at h2
      cases h2
    · intro cs hfl hne hmag hzo hover
      rw [hmag] at h2
      cases h2
  rw [if_neg h2]
  rcases hzo : zo data with e | cs
  · dsimp only
    refine ⟨?_, ?_, ?_, ?_⟩
    · intro hw
      cases hw
    · intro _
      rfl
    · intro _ _ _ _ _
      rfl
    · intro cs hfl hne hmag hz
      cases hz
  · dsimp only
    rcases hcl : zstdCapLoop maxDecompressedSize cs 0 with _ | cs'
    · dsimp only
      refine ⟨?_, ?_, ?_, ?_⟩
      · intro hw
        cases hw
      · intro _
        rfl
      · intro e hfl hne hmag hz
        cases hz
      · intro _ _ _ _ _ _
        rfl
    · dsimp only
      refine ⟨?_, ?_, ?_, ?_⟩
      · intro _
        show (cs'.flatten).length ≤ maxDecompressedSize
        rw [List.length_flatten, zstdCapLoop_eq maxDecompressedSize cs 0 cs' hcl]
        rcases zstdCapLoop_le maxDecompressedSize cs 0 cs' hcl with h3 | h3
        · omega
        · simp [h3]
      · intro hw
        cases hw
      · intro e hfl hne hmag hz
        cases hz
      · intro cs0 hfl hne hmag hz hover
        have hcs : cs0 = cs := (Except.ok.inj hz).symm
        rw [hcs] at hover
        rw [zstdCapLoop_overflow maxDecompressedSize cs 0 (by omega)
          (Nat.zero_le _)] at hcl
        cases hcl

/-- Witness for `c1_framer_decompress_bounds`: a flagged two-chunk
stream of 6 MiB each exceeds the 10 MiB cap and falls back to the
original bytes with one resync. -/
theorem c1_framer_decompress_bounds_witness :
    framer_maybe_decompress
        (fun _ => .ok [List.replicate 6291456 0, List.replicate 6291456 0])
        [0x28, 0xb5, 0x2f, 0xfd] true { } =
      ([0x28, 0xb5, 0x2f, 0xfd], false, FramerSt.bumpResync { }) := by
  have h1 : (List.replicate 6291456 (0 : Nat)).length = 6291456 := by
    rw [List.length_replicate]
  have hsum : maxDecompressedSize <
      ([List.replicate 6291456 (0 : Nat), List.replicate 6291456 0].map List.length).sum := by
    rw [List.map_cons, List.map_cons, List.map_nil, h1, List.sum_cons, List.sum_cons,
      List.sum_nil]
    norm_num [maxDecompressedSize]
  exact (c1_framer_decompress_bounds
      (fun _ => .ok [List.replicate 6291456 0, List.replicate 6291456 0])
      [0x28, 0xb5, 0x2f, 0xfd] true { }).2.2.2
    [List.replicate 6291456 0, List.replicate 6291456 0]
    rfl (by decide) (by decide) rfl hsum

/-- C1 counterexample: the trading extractor's `maybe_decompress`
(`trading_center_decode.py`) applies no output cap — a one-shot
decompression yielding 10 MiB + 1 byte is returned in full, exceeding
the 10 MiB bound the claim asserts for every decompression site. -/
theorem c1_trading_no_cap :
    tc_maybe_decompress (fun _ => .ok (List.replicate 10485761 0))
        (fun _ => .error ()) [0x28, 0xb5, 0x2f, 0xfd] true =
      .ok (List.replicate 10485761 0) ∧
    (List.replicate 10485761 (0 : Nat)).length = 10485761 ∧
    maxDecompressedSize < 10485761 := by
  refine ⟨rfl, ?_, by decide⟩
  rw [List.length_replicate]

/-! ## C4 — protobuf parse errors -/

/-- C4 (code bug): a frame with the combat service uid and a known
method id (`0x2B`, `SyncServerTime`) whose payload fails protobuf
parsing makes `CombatDecoder.decode` raise (the `ParseFromString` call
has no handler), and `CombatDecoderV2.decode` as well: its static path
catches the `DecodeError` but then falls through to the v1 fallback,
which re-parses the same payload and raises.  The spec says a parse
error yields `None` and never aborts the run. -/
theorem c4_parse_error_raises :
    combat_decode (fun _ _ => .error ())
        { service_uid := SERVICE_UID, stub_id := 0, method_id := 0x2B,
          payload := [0xff], was_compressed := false, offset := 0 } = .error () ∧
    combat_decode_v2
        (fun m => if m = 0x2B then
            some ("blueprotobuf_package.SyncServerTime", fun _ => .error ())
          else none)
        (fun _ _ => .error ())
        { service_uid := SERVICE_UID, stub_id := 0, method_id := 0x2B,
          payload := [0xff], was_compressed := false, offset := 0 } = .error () :=
  ⟨rfl, rfl⟩

/-! ## C5/C6 — reducer stage lemmas -/

theorem apply_timing_total (s : CombatReducer) :
    (apply_timing s).total_damage = s.total_damage := by
  unfold apply_timing
  split <;> rfl

theorem apply_timing_hits (s : CombatReducer) :
    (apply_timing s).hits = s.hits := by
  unfold apply_timing
  split <;> rfl

theorem apply_timing_uuid (s : CombatReducer) :
    (apply_timing s).player_uuid = s.player_uuid := by
  unfold apply_timing
  split <;> rfl

theorem apply_skill_total (damage : List (String × JValue)) (v : Int)
    (crit : Bool) (s : CombatReducer) :
    (apply_skill damage v crit s).total_damage = s.total_damage := by
  unfold apply_skill
  split <;> rfl

theorem apply_skill_hits (damage : List (String × JValue)) (v : Int)
    (crit : Bool) (s : CombatReducer) :
    (apply_skill damage v crit s).hits = s.hits := by
  unfold apply_skill
  split <;> rfl

theorem apply_skill_uuid (damage : List (String × JValue)) (v : Int)
    (crit : Bool) (s : CombatReducer) :
    (apply_skill damage v crit s).player_uuid = s.player_uuid := by
  unfold apply_skill
  split <;> rfl

theorem apply_target_total (t : Option Int) (v : Int) (crit : Bool)
    (s : CombatReducer) :
    (apply_target t v crit s).total_damage = s.total_damage := by
  unfold apply_target
  split <;> rfl

theorem apply_target_hits (t : Option Int) (v : Int) (crit : Bool)
    (s : CombatReducer) :
    (apply_target t v crit s).hits = s.hits := by
  unfold apply_target
  split <;> rfl

theorem apply_target_uuid (t : Option Int) (v : Int) (crit : Bool)
    (s : CombatReducer) :
    (apply_target t v crit s).player_uuid = s.player_uuid := by
  unfold apply_target
  split <;> rfl

/-- `_process_damage` adds exactly `damage_credit` to `total_damage`. -/
theorem process_damage_total (s : CombatReducer) (damage : List (String × JValue))
    (t : Option Int) :
    (process_damage s damage t).total_damage =
      s.total_damage + damage_credit s.player_uuid damage := by
  unfold process_damage damage_credit
  split_ifs with h1 h2 h3
  · omega
  · omega
  · omega
  · cases hch : damage_chain damage with
    | none =>
      dsimp only
      omega
    | some v =>
      dsimp only
      by_cases hv : v ≤ 0
      · rw [if_pos hv, if_pos hv]
        omega
      · simp only [if_neg hv, apply_target_total, apply_skill_total, apply_timing_total]

/-- `_process_damage` never changes `player_uuid`. -/
theorem process_damage_uuid (s : CombatReducer) (damage : List (String × JValue))
    (t : Option Int) :
    (process_damage s damage t).player_uuid = s.player_uuid := by
  unfold process_damage
  split_ifs with h1 h2 h3
  · rfl
  · rfl
  · rfl
  · cases hch : damage_chain damage with
    | none => rfl
    | some v =>
      dsimp only
      by_cases hv : v ≤ 0
      · rw [if_pos hv]
      · simp only [if_neg hv, apply_target_uuid, apply_skill_uuid, apply_timing_uuid]

/-- The `damages` fold of `_process_delta`, characterised. -/
theorem damages_fold_char (t : Option Int) :
    ∀ (ds : List JValue) (s : CombatReducer),
      ((ds.foldl
          (fun acc d =>
            match d with
            | .obj kvs => process_damage acc kvs t
            | _ => acc) s).total_damage =
        s.total_damage + damages_credit s.player_uuid ds) ∧
      ((ds.foldl
          (fun acc d =>
            match d with
            | .obj kvs => process_damage acc kvs t
            | _ => acc) s).player_uuid = s.player_uuid) := by
  intro ds
  induction ds with
  | nil =>
    intro s
    refine ⟨?_, rfl⟩
    show s.total_damage = s.total_damage + 0
    omega
  | cons d rest ih =>
    intro s
    rw [List.foldl_cons]
    cases d with
    | obj kvs =>
      have h1 := ih (process_damage s kvs t)
      refine ⟨?_, ?_⟩
      · rw [show damages_credit s.player_uuid (JValue.obj kvs :: rest) =
            damage_credit s.player_uuid kvs + damages_credit s.player_uuid rest from rfl]
        rw [h1.1, process_damage_total, process_damage_uuid]
        omega
      · rw [h1.2, process_damage_uuid]
    | null =>
      have h1 := ih s
      refine ⟨?_, h1.2⟩
      rw [h1.1]
      rw [show damages_credit s.player_uuid (JValue.null :: rest) =
          0 + damages_credit s.player_uuid rest from rfl]
      omega
    | bool b =>
      have h1 := ih s
      refine ⟨?_, h1.2⟩
      rw [h1.1]
      rw [show damages_credit s.player_uuid (JValue.bool b :: rest) =
          0 + damages_credit s.player_uuid rest from rfl]
      omega
    | int n =>
      have h1 := ih s
      refine ⟨?_, h1.2⟩
      rw [h1.1]
      rw [show damages_credit s.player_uuid (JValue.int n :: rest) =
          0 + damages_credit s.player_uuid rest from rfl]
      omega
    | str s0 =>
      have h1 := ih s
      refine ⟨?_, h1.2⟩
      rw [h1.1]
      rw [show damages_credit s.player_uuid (JValue.str s0 :: rest) =
          0 + damages_credit s.player_uuid rest from rfl]
      omega
    | arr xs =>
      have h1 := ih s
      refine ⟨?_, h1.2⟩
      rw [h1.1]
      rw [show damages_credit s.player_uuid (JValue.arr xs :: rest) =
          0 + damages_credit s.player_uuid rest from rfl]
      omega

/-- `_process_delta`, characterised. -/
theorem process_delta_char (delta : List (String × JValue)) (s : CombatReducer) :
    ((process_delta s delta).total_damage =
      s.total_damage + delta_credit s.player_uuid delta) ∧
    ((process_delta s delta).player_uuid = s.player_uuid) := by
  unfold process_delta delta_credit
  cases h : objGet delta "skill_effects" with
  | none =>
    dsimp only
    refine ⟨?_, rfl⟩
    omega
  | some v =>
    cases v with
    | obj se =>
      dsimp only
      exact damages_fold_char (parse_int (objGet delta "uuid")) _ s
    | null =>
      dsimp only
      exact ⟨by omega, rfl⟩
    | bool b =>
      dsimp only
      exact ⟨by omega, rfl⟩
    | int n =>
      dsimp only
      exact ⟨by omega, rfl⟩
    | str s0 =>
      dsimp only
      exact ⟨by omega, rfl⟩
    | arr xs =>
      dsimp only
      exact ⟨by omega, rfl⟩

/-- The `delta_infos` fold of the `SyncNearDeltaInfo` branch, characterised. -/
theorem deltas_fold_char :
    ∀ (ds : List JValue) (s : CombatReducer),
      ((ds.foldl
          (fun acc d =>
            match d with
            | .obj kv => process_delta acc kv
            | _ => acc) s).total_damage =
        s.total_damage + deltas_credit s.player_uuid ds) ∧
      ((ds.foldl
          (fun acc d =>
            match d with
            | .obj kv => process_delta acc kv
            | _ => acc) s).player_uuid = s.player_uuid) := by
  intro ds
  induction ds with
  | nil =>
    intro s
    refine ⟨?_, rfl⟩
    show s.total_damage = s.total_damage + 0
    omega
  | cons d rest ih =>
    intro s
    rw [List.foldl_cons]
    cases d with
    | obj kv =>
      have h1 := ih (process_delta s kv)
      have h2 := process_delta_char kv s
      refine ⟨?_, ?_⟩
      · rw [show deltas_credit s.player_uuid (JValue.obj kv :: rest) =
            delta_credit s.player_uuid kv + deltas_credit s.player_uuid rest from rfl]
        rw [h1.1, h2.1, h2.2]
        omega
      · rw [h1.2, h2.2]
    | null =>
      have h1 := ih s
      refine ⟨?_, h1.2⟩
      rw [h1.1]
      rw [show deltas_credit s.player_uuid (JValue.null :: rest) =
          0 + deltas_credit s.player_uuid rest from rfl]
      omega
    | bool b =>
      have h1 := ih s
      refine ⟨?_, h1.2⟩
      rw [h1.1]
      rw [show deltas_credit s.player_uuid (JValue.bool b :: rest) =
          0 + deltas_credit s.player_uuid rest from rfl]
      omega
    | int n =>
      have h1 := ih s
      refine ⟨?_, h1.2⟩
      rw [h1.1]
      rw [show deltas_credit s.player_uuid (JValue.int n :: rest) =
          0 + deltas_credit s.player_uuid rest from rfl]
      omega
    | str s0 =>
      have h1 := ih s
      refine ⟨?_, h1.2⟩
      rw [h1.1]
      rw [show deltas_credit s.player_uuid (JValue.str s0 :: rest) =
          0 + deltas_credit s.player_uuid rest from rfl]
      omega
    | arr xs =>
      have h1 := ih s
      refine ⟨?_, h1.2⟩
      rw [h1.1]
      rw [show deltas_credit s.player_uuid (JValue.arr xs :: rest) =
          0 + deltas_credit s.player_uuid rest from rfl]
      omega

/-- `_update_server_time` touches neither `total_damage` nor `player_uuid`. -/
theorem update_server_time_char (s : CombatReducer) (data : List (String × JValue)) :
    (update_server_time s data).total_damage = s.total_damage ∧
    (update_server_time s data).player_uuid = s.player_uuid := by
  unfold update_server_time
  split <;> exact ⟨rfl, rfl⟩

/-- `_update_player_uuid`, characterised. -/
theorem update_player_uuid_char (s : CombatReducer) (data : List (String × JValue)) :
    (update_player_uuid s data).total_damage = s.total_damage ∧
    (update_player_uuid s data).player_uuid = uuid_update s.player_uuid data := by
  unfold update_player_uuid uuid_update
  repeat' split
  all_goals exact ⟨rfl, rfl⟩

/-- One record of `process_records`, characterised. -/
theorem record_step_char (r : JValue) (s : CombatReducer) :
    (record_step s r).total_damage = s.total_damage + record_credit s.player_uuid r ∧
    (record_step s r).player_uuid = record_uuid s.player_uuid r := by
  cases r with
  | obj kvs =>
    unfold record_step record_credit record_uuid
    dsimp only
    cases hmt : objGet kvs "message_type" with
    | none =>
      dsimp only
      exact ⟨by omega, by trivial⟩
    | some mv =>
      cases mv with
      | str mt =>
        dsimp only
        by_cases hst : (mt == "blueprotobuf_package.SyncServerTime") = true
        · simp only [hst, if_true]
          have h1 := update_server_time_char s
            (match objGet kvs "data" with
             | some (.obj d) => d
             | _ => [])
          exact ⟨by rw [h1.1]; omega, h1.2⟩
        · simp only [hst, if_false, Bool.false_eq_true]
          by_cases htm : (mt == "blueprotobuf_package.SyncToMeDeltaInfo") = true
          · simp only [htm, if_true]
            have h1 := update_player_uuid_char s
              (match objGet kvs "data" with
               | some (.obj d) => d
               | _ => [])
            have h2 := process_delta_char
              (match objGet
                  (match objGet kvs "data" with
                   | some (.obj d) => d
                   | _ => []) "delta_info" with
               | some (.obj d) =>
                 match objGet d "base_delta" with
                 | some (.obj bd) => bd
                 | _ => []
               | _ => [])
              (update_player_uuid s
                (match objGet kvs "data" with
                 | some (.obj d) => d
                 | _ => []))
            refine ⟨?_, ?_⟩
            · rw [h2.1, h1.1, h1.2]
            · rw [h2.2, h1.2]
          · simp only [htm, if_false, Bool.false_eq_true]
            by_cases hnd : (mt == "blueprotobuf_package.SyncNearDeltaInfo") = true
            · simp only [hnd, if_true]
              exact deltas_fold_char _ s
            · simp only [hnd, if_false, Bool.false_eq_true]
              exact ⟨by omega, by trivial⟩
      | null =>
        dsimp only
        exact ⟨by omega, by trivial⟩
      | bool b =>
        dsimp only
        exact ⟨by omega, by trivial⟩
      | int n =>
        dsimp only
        exact ⟨by omega, by trivial⟩
      | arr xs =>
        dsimp only
        exact ⟨by omega, by trivial⟩
      | obj o =>
        dsimp only
        exact ⟨by omega, by trivial⟩
  | null =>
    unfold record_step record_credit record_uuid
    dsimp only
    exact ⟨by omega, by trivial⟩
  | bool b =>
    unfold record_step record_credit record_uuid
    dsimp only
    exact ⟨by omega, by trivial⟩
  | int n =>
    unfold record_step record_credit record_uuid
    dsimp only
    exact ⟨by omega, by trivial⟩
  | str s0 =>
    unfold record_step record_credit record_uuid
    dsimp only
    exact ⟨by omega, by trivial⟩
  | arr xs =>
    unfold record_step record_credit record_uuid
    dsimp only
    exact ⟨by omega, by trivial⟩

/-- `process_records`, characterised: the total credited and the final
`player_uuid` depend on the prior state only through `player_uuid`. -/
theorem process_records_char :
    ∀ (rs : List JValue) (s : CombatReducer),
      (process_records s rs).total_damage =
        s.total_damage + records_credit s.player_uuid rs ∧
      (process_records s rs).player_uuid = records_uuid s.player_uuid rs := by
  intro rs
  induction rs with
  | nil =>
    intro s
    refine ⟨?_, rfl⟩
    show s.total_damage = s.total_damage + 0
    omega
  | cons r rest ih =>
    intro s
    have hstep := record_step_char r s
    have h1 := ih (record_step s r)
    refine ⟨?_, ?_⟩
    · rw [show process_records s (r :: rest) = process_records (record_step s r) rest from rfl]
      rw [h1.1, hstep.1, hstep.2]
      rw [show records_credit s.player_uuid (r :: rest) =
          record_credit s.player_uuid r +
            records_credit (record_uuid s.player_uuid r) rest from rfl]
      omega
    · rw [show process_records s (r :: rest) = process_records (record_step s r) rest from rfl]
      rw [h1.2, hstep.2]
      rfl

/-! ## C5 — damage-value selection -/

/-- C5 counterexample: on `{actual_value: -1, value: 100}` the claim's
first-positive selection yields 100, but the source's `or`-chain stops
at the truthy `-1` and the `raw_value <= 0` guard then skips the whole
entry — the reducer state is unchanged.  A negative field does not fall
through to the next one. -/
theorem c5_negative_value_skips :
    process_damage { } c5dmg none = { } ∧
    spec_first_positive c5dmg = some 100 := ⟨rfl, rfl⟩

/-- C5 (amended): for an entry passing the heal/miss/attribution
filters, the credited value is the Python `or`-chain over the four
tolerantly-parsed fields (zero and unparsable fields fall through):
when it yields a positive `v`, exactly `v` is credited and `hits`
increments; when it yields a non-positive value, or nothing, the entry
is skipped with the state unchanged. -/
theorem c5_value_selection (s : CombatReducer) (damage : List (String × JValue))
    (t : Option Int)
    (h1 : isHealType (objGet damage "type") = false)
    (h2 : optTruthy (objGet damage "is_miss") = false)
    (h3 : attrSkip s.player_uuid (parse_int (objGet damage "attacker_uuid")) = false) :
    (∀ v : Int, damage_chain damage = some v → 0 < v →
      (process_damage s damage t).total_damage = s.total_damage + v ∧
      (process_damage s damage t).hits = s.hits + 1) ∧
    (∀ v : Int, damage_chain damage = some v → v ≤ 0 →
      process_damage s damage t = s) ∧
    (damage_chain damage = none → process_damage s damage t = s) := by
  unfold process_damage
  simp only [h1, h2, h3, Bool.false_eq_true, if_false]
  refine ⟨?_, ?_, ?_⟩
  · intro v hv hvpos
    rw [hv]
    dsimp only
    rw [if_neg (by omega)]
    constructor
    · simp only [apply_target_total, apply_skill_total, apply_timing_total]
    · simp only [apply_target_hits, apply_skill_hits, apply_timing_hits]
  · intro v hv hvle
    rw [hv]
    dsimp only
    rw [if_pos hvle]
  · intro hch
    rw [hch]

/-- Witness for `c5_value_selection`: a lone `value: 5` credits 5. -/
theorem c5_value_selection_witness :
    (process_damage { } [("value", JValue.int 5)] none).total_damage =
      ({ } : CombatReducer).total_damage + 5 :=
  ((c5_value_selection { } [("value", JValue.int 5)] none rfl rfl rfl).1
    5 rfl (by decide)).1

/-! ## C6 — double-pass totals -/

/-- C6 counterexample: for the document `[c6near, c6tome]` — 100 damage
from attacker 9 credited while `player_uuid` is still unset, then
`SyncToMeDeltaInfo` establishing `player_uuid = 7` — processing the
concatenation `D ++ D` yields 100, not 2 × 100: during the second pass
the attribution filter (uuid 7 vs attacker 9) suppresses the credit. -/
theorem c6_double_pass_not_twice :
    (process_records { } (c6doc ++ c6doc)).total_damage ≠
      2 * (process_records { } c6doc).total_damage := by
  decide

/-- C6 (amended): if a single pass over the (well-formed) document
leaves `player_uuid` unset, processing the document twice credits
exactly twice the single-pass total. -/
theorem c6_double_pass (D : List JValue) (hwf : D.all wf_record = true)
    (hu : (process_records { } D).player_uuid = none) :
    (process_records { } (D ++ D)).total_damage =
      2 * (process_records { } D).total_damage := by
  have h1 := process_records_char D { }
  have happ : process_records { } (D ++ D) =
      process_records (process_records { } D) D := by
    unfold process_records
    rw [List.foldl_append]
  have h2 := process_records_char D (process_records { } D)
  rw [happ, h2.1, hu, h1.1]
  have h0 : ({ } : CombatReducer).total_damage = 0 := rfl
  have h0u : ({ } : CombatReducer).player_uuid = none := rfl
  rw [h0, h0u]
  omega

/-- Witness for `c6_double_pass`: a document with one near-delta credit
and no player id doubles exactly. -/
theorem c6_double_pass_witness :
    (process_records { } ([c6near] ++ [c6near])).total_damage =
      2 * (process_records { } [c6near]).total_damage :=
  c6_double_pass [c6near] (by decide) (by decide)

/-! ## C8 — consolidation -/

/-- The `setdefault` fold of `consolidate` keeps exactly the first
`Listing` of each key, in first-seen order (invariant: the stored keys
are the keys of the stored listings). -/
theorem consolidate_go_snd :
    ∀ (ls : List Listing) (acc : List ((Option Int × Int × Int) × Listing)),
      acc.map Prod.fst = (acc.map Prod.snd).map listingKey →
      (consolidate_go acc ls).map Prod.snd =
        firstOccurrences (acc.map Prod.snd) ls := by
  intro ls
  induction ls with
  | nil =>
    intro acc h
    rfl
  | cons l rest ih =>
    intro acc h
    unfold consolidate_go firstOccurrences
    by_cases hmem : listingKey l ∈ acc.map Prod.fst
    · rw [if_pos hmem, if_pos (by rw [← h]; exact hmem)]
      exact ih acc h
    · rw [if_neg hmem, if_neg (by rw [← h]; exact hmem)]
      have h2 : (acc ++ [(listingKey l, l)]).map Prod.fst =
          ((acc ++ [(listingKey l, l)]).map Prod.snd).map listingKey := by
        rw [List.map_append, List.map_append, List.map_append, h]
        rfl
      have h3 := ih (acc ++ [(listingKey l, l)]) h2
      rw [h3, List.map_append]
      rfl

/-- C8: `consolidate` deduplicates by `(item_config_id, price_luno,
quantity)`, keeps the first occurrence of each key, preserves the
insertion order of first-seen keys (it equals the spec-side
`firstOccurrences` map), and without a resolver the output carries no
`item_name` and no `metadata.item_icon`. -/
theorem c8_consolidate_spec :
    (∀ (listings : List Listing) (resolver : Option (Int → Option ItemRecord)),
      consolidate listings resolver =
        (firstOccurrences [] listings).map (fun l => l.to_dict resolver)) ∧
    (∀ l : Listing,
      (l.to_dict none).item_name = none ∧ (l.to_dict none).md_item_icon = none) := by
  constructor
  · intro listings resolver
    unfold consolidate
    have h1 := consolidate_go_snd listings [] rfl
    rw [show firstOccurrences [] listings =
        firstOccurrences (([] : List ((Option Int × Int × Int) × Listing)).map Prod.snd)
          listings from rfl]
    rw [← h1, List.map_map]
    rfl
  · intro l
    unfold Listing.to_dict
    exact ⟨rfl, rfl⟩

/-! ## C10 — the trading iterator's weaker resync rule -/

/-- C10: at any in-bounds cursor position, `iter_frames` of the trading
extractor slides by one byte only when the declared length is 0 or the
frame runs past the buffer end; under the same `length < 6` condition the
framer would instead resync (slide and count); and a declared length in
1..5 that fits is accepted and yielded with an empty body, the cursor
advancing by that length. -/
theorem c10_trading_iter_frames_step (data : Bytes) (offset fuel : Nat)
    (h6 : offset + 6 ≤ data.length) :
    ((be32 data offset = 0 ∨ offset + be32 data offset > data.length) →
      tc_iter_frames_aux data (fuel + 1) offset =
        tc_iter_frames_aux data fuel (offset + 1)) ∧
    (∀ (zo : ZChunkOracle) (depth : Nat) (st : FramerSt), be32 data offset < 6 →
      parse_stream zo (fuel + 1) data offset depth st =
        parse_stream zo fuel data (offset + 1) depth st.bumpResync) ∧
    (1 ≤ be32 data offset → be32 data offset ≤ 5 →
      offset + be32 data offset ≤ data.length →
      tc_iter_frames_aux data (fuel + 1) offset =
        { offset := offset, length := be32 data offset,
          fragment_type := be16 data (offset + 4) &&& 0x7FFF,
          is_zstd := be16 data (offset + 4) &&& 0x8000 ≠ 0,
          body := [] } :: tc_iter_frames_aux data fuel (offset + be32 data offset)) := by
  refine ⟨?_, ?_, ?_⟩
  · intro hcond
    rw [show tc_iter_frames_aux data (fuel + 1) offset =
        (if offset + 6 ≤ data.length then
          if be32 data offset = 0 ∨ offset + be32 data offset > data.length then
            tc_iter_frames_aux data fuel (offset + 1)
          else
            { offset := offset, length := be32 data offset,
              fragment_type := be16 data (offset + 4) &&& 0x7FFF,
              is_zstd := be16 data (offset + 4) &&& 0x8000 ≠ 0,
              body := slice data (offset + 6) (offset + be32 data offset) } ::
              tc_iter_frames_aux data fuel (offset + be32 data offset)
        else []) from rfl]
    rw [if_pos h6, if_pos hcond]
  · intro zo depth st hlt
    rw [parse_stream]
    rw [if_pos h6]
    dsimp only
    rw [if_pos hlt]
  · intro hge hle hfit
    rw [show tc_iter_frames_aux data (fuel + 1) offset =
        (if offset + 6 ≤ data.length then
          if be32 data offset = 0 ∨ offset + be32 data offset > data.length then
            tc_iter_frames_aux data fuel (offset + 1)
          else
            { offset := offset, length := be32 data offset,
              fragment_type := be16 data (offset + 4) &&& 0x7FFF,
              is_zstd := be16 data (offset + 4) &&& 0x8000 ≠ 0,
              body := slice data (offset + 6) (offset + be32 data offset) } ::
              tc_iter_frames_aux data fuel (offset + be32 data offset)
        else []) from rfl]
    rw [if_pos h6, if_neg (by omega)]
    have hbody : slice data (offset + 6) (offset + be32 data offset) = [] := by
      unfold slice
      rw [show offset + be32 data offset - (offset + 6) = 0 from by omega]
      rw [List.take_zero]
    rw [hbody]

/-- Witness for `c10_trading_iter_frames_step`: the buffer
`00 00 00 03 00 06 09 09` declares length 3 at offset 0 — the trading
iterator yields a frame with empty body and advances the cursor to 3. -/
theorem c10_trading_iter_frames_step_witness :
    tc_iter_frames_aux [0, 0, 0, 3, 0, 6, 9, 9] 11 0 =
      { offset := 0, length := 3, fragment_type := 6, is_zstd := false,
        body := [] } :: tc_iter_frames_aux [0, 0, 0, 3, 0, 6, 9, 9] 10 3 := by
  have h := (c10_trading_iter_frames_step [0, 0, 0, 3, 0, 6, 9, 9] 0 10
    (by decide)).2.2 (by decide) (by decide) (by decide)
  exact h

/-! ## C7 — listing construction -/

/-- The per-entry filter emits only well-shaped listings. -/
theorem listing_of_entry_wf (fo seq : Nat) (entry : JValue) (l : Listing)
    (h : listing_of_entry fo seq entry = some l) : listing_wf l := by
  cases entry with
  | obj e =>
    unfold listing_of_entry at h
    dsimp only at h
    rcases hp : pyIsInt (objGet e "1") with _ | price <;> rw [hp] at h <;>
      (try dsimp only at h)
    · cases h
    rcases hq : pyIsInt (objGet e "2") with _ | quantity <;> rw [hq] at h <;>
      (try dsimp only at h)
    · cases h
    rcases hd : objGet e "3" with _ | dv <;> rw [hd] at h <;>
      (try dsimp only at h)
    · cases h
    cases dv with
    | obj details =>
      dsimp only at h
      split at h
      · rename_i hsome
        have hl := Option.some.inj h
        subst hl
        exact ⟨e, rfl, by rw [hp], by rw [hq], details, hd, hsome, rfl⟩
      · cases h
    | null => cases h
    | bool b => cases h
    | int n => cases h
    | str s0 => cases h
    | arr xs => cases h
  | null => cases h
  | bool b => cases h
  | int n => cases h
  | str s0 => cases h
  | arr xs => cases h

/-- All listings from one decoded segment are well-shaped. -/
theorem listings_of_decoded_wf (fo seq : Nat) (dec : List (String × JValue)) :
    ∀ l ∈ listings_of_decoded fo seq dec, listing_wf l := by
  intro l hl
  unfold listings_of_decoded at hl
  split at hl
  · split at hl
    · rw [List.mem_filterMap] at hl
      obtain ⟨entry, _, he⟩ := hl
      exact listing_of_entry_wf fo seq entry l he
    · cases hl
  · cases hl

/-- The nested-stream scan only appends well-shaped listings. -/
theorem scan_listings_wf (bo : BbpbOracle) (nested : Bytes) (fo seq : Nat) :
    ∀ (fuel idx : Nat) (acc : List Listing), (∀ l ∈ acc, listing_wf l) →
      ∀ l ∈ scan_listings bo nested fo seq fuel idx acc, listing_wf l := by
  intro fuel
  induction fuel with
  | zero =>
    intro idx acc hacc
    exact hacc
  | succ f ih =>
    intro idx acc hacc l hl
    rw [show scan_listings bo nested fo seq (f + 1) idx acc =
        (if idx < nested.length then
          if byteAt nested idx ≠ 0x0A then
            scan_listings bo nested fo seq f (idx + 1) acc
          else
            match read_varint nested (idx + 1) with
            | none => scan_listings bo nested fo seq f (idx + 1) acc
            | some (msg_len, next_idx) =>
              if next_idx + msg_len > nested.length then acc
              else
                match bo (slice nested idx (next_idx + msg_len)) with
                | none => scan_listings bo nested fo seq f (next_idx + msg_len) acc
                | some decoded =>
                    scan_listings bo nested fo seq f (next_idx + msg_len)
                      (acc ++ listings_of_decoded fo seq decoded)
        else acc) from rfl] at hl
    split at hl
    · split at hl
      · exact ih (idx + 1) acc hacc l hl
      · split at hl
        · exact ih (idx + 1) acc hacc l hl
        · split at hl
          · exact hacc l hl
          · split at hl
            · exact ih _ acc hacc l hl
            · rename_i decoded hdec
              refine ih _ _ ?_ l hl
              intro l2 hl2
              rw [List.mem_append] at hl2
              rcases hl2 with h2 | h2
              · exact hacc l2 h2
              · exact listings_of_decoded_wf fo seq decoded l2 h2
    · exact hacc l hl

/-- The frame loop of `extract_listing_blocks` only accumulates
well-shaped listings. -/
theorem extract_go_wf (z1 z2 : ZOneShot) (bo : BbpbOracle) :
    ∀ (frames : List TcFrame) (acc listings : List Listing),
      (∀ l ∈ acc, listing_wf l) →
      extract_go z1 z2 bo frames acc = .ok listings →
      ∀ l ∈ listings, listing_wf l := by
  intro frames
  induction frames with
  | nil =>
    intro acc listings hacc h
    have h2 : acc = listings := Except.ok.inj h
    rw [← h2]
    exact hacc
  | cons f rest ih =>
    intro acc listings hacc h
    rw [show extract_go z1 z2 bo (f :: rest) acc =
        (if f.fragment_type = 0x0006 ∧ 4 < f.body.length then
          match tc_maybe_decompress z1 z2 (f.body.drop 4) f.is_zstd with
          | .error e => .error e
          | .ok nested =>
              if nested = [] then extract_go z1 z2 bo rest acc
              else extract_go z1 z2 bo rest
                (scan_listings bo nested f.offset (be32 f.body 0)
                  (nested.length + 1) 0 acc)
        else extract_go z1 z2 bo rest acc) from rfl] at h
    split at h
    · split at h
      · cases h
      · split at h
        · exact ih acc listings hacc h
        · rename_i nested heq hne
          exact ih _ listings
            (scan_listings_wf bo nested f.offset (be32 f.body 0)
              (nested.length + 1) 0 acc hacc) h
    · exact ih acc listings hacc h

/-- C7 (amended): the trading extractor constructs a `Listing` only from
an entry carrying an integer price `entry["1"]`, an integer quantity
`entry["2"]` and a sub-message `entry["3"]` with key `"2"` *present*;
the item config id is recorded when `entry["3"]["2"]` is an integer and
is `None` otherwise — so every emitted `Listing` has well-typed price
and quantity, and an `item_config_id` equal to the integer reading of
the item details. -/
theorem c7_listing_invariant (z1 z2 : ZOneShot) (bo : BbpbOracle) (data : Bytes)
    (listings : List Listing)
    (h : extract_listing_blocks z1 z2 bo data = .ok listings) :
    ∀ l ∈ listings, listing_wf l := by
  unfold extract_listing_blocks at h
  exact extract_go_wf z1 z2 bo (tc_iter_frames data) [] listings
    (fun l hl => absurd hl (List.not_mem_nil l)) h

/-- Witness for `c7_listing_invariant` at the concrete capture
`c7data`. -/
theorem c7_listing_invariant_witness : listing_wf c7listing :=
  c7_listing_invariant (fun _ => .error ()) (fun _ => .error ())
    (fun _ => some c7tree) c7data [c7listing] rfl c7listing
    (List.mem_singleton.mpr rfl)

/-- C7 counterexample: on `c7data` with the decoded tree `c7tree` the
extractor emits a `Listing` whose `entry["3"]["2"]` is the string
`"x"` — not an integer as the claim requires — with
`item_config_id = None`. -/
theorem c7_listing_without_int_item_id :
    extract_listing_blocks (fun _ => .error ()) (fun _ => .error ())
        (fun _ => some c7tree) c7data = .ok [c7listing] ∧
    c7listing.item_config_id = none ∧
    objGet [("2", JValue.str "x")] "2" = some (.str "x") :=
  ⟨rfl, rfl, rfl⟩

/-! ## C3 — garbage prefixes -/

theorem byteAt_append (G B : Bytes) : ∀ i, byteAt (G ++ B) (G.length + i) = byteAt B i := by
  induction G with
  | nil =>
    intro i
    rw [List.nil_append, List.length_nil, Nat.zero_add]
  | cons a g ihg =>
    intro i
    show byteAt (a :: (g ++ B)) ((a :: g).length + i) = byteAt B i
    rw [show (a :: g).length + i = (g.length + i) + 1 from by
      rw [List.length_cons]; omega]
    show byteAt (g ++ B) (g.length + i) = byteAt B i
    exact ihg i

theorem be16_append (G B : Bytes) (j : Nat) :
    be16 (G ++ B) (G.length + j) = be16 B j := by
  unfold be16
  rw [show G.length + j + 1 = G.length + (j + 1) from by omega,
    byteAt_append, byteAt_append]

theorem be32_append (G B : Bytes) (j : Nat) :
    be32 (G ++ B) (G.length + j) = be32 B j := by
  unfold be32
  rw [show G.length + j + 1 = G.length + (j + 1) from by omega,
    show G.length + j + 2 = G.length + (j + 2) from by omega,
    show G.length + j + 3 = G.length + (j + 3) from by omega,
    byteAt_append, byteAt_append, byteAt_append, byteAt_append]

theorem drop_append_shift (G B : Bytes) : ∀ i, (G ++ B).drop (G.length + i) = B.drop i := by
  induction G with
  | nil =>
    intro i
    rw [List.nil_append, List.length_nil, Nat.zero_add]
  | cons a g ihg =>
    intro i
    show (a :: (g ++ B)).drop ((a :: g).length + i) = B.drop i
    rw [show (a :: g).length + i = (g.length + i) + 1 from by
      rw [List.length_cons]; omega]
    show (g ++ B).drop (g.length + i) = B.drop i
    exact ihg i

theorem slice_append_shift (G B : Bytes) (s e : Nat) :
    slice (G ++ B) (G.length + s) (G.length + e) = slice B s e := by
  unfold slice
  rw [drop_append_shift, show G.length + e - (G.length + s) = e - s from by omega]

theorem addResync_bumpResync (st : FramerSt) (k : Nat) :
    st.bumpResync.addResync k = st.addResync (k + 1) := by
  unfold FramerSt.bumpResync FramerSt.addResync
  dsimp only
  rw [show st.resync_events + 1 + k = st.resync_events + (k + 1) from by omega]

theorem bumpResync_addResync_comm (st : FramerSt) (k : Nat) :
    st.bumpResync.addResync k = (st.addResync k).bumpResync := by
  unfold FramerSt.bumpResync FramerSt.addResync
  dsimp only
  rw [show st.resync_events + 1 + k = st.resync_events + k + 1 from by omega]

/-- `_maybe_decompress` commutes with a pre-added resync count. -/
theorem framer_maybe_decompress_addResync (zo : ZChunkOracle) (data : Bytes)
    (fl : Bool) (st : FramerSt) (k : Nat) :
    framer_maybe_decompress zo data fl (st.addResync k) =
      ((framer_maybe_decompress zo data fl st).1,
       (framer_maybe_decompress zo data fl st).2.1,
       (framer_maybe_decompress zo data fl st).2.2.addResync k) := by
  unfold framer_maybe_decompress
  split
  · rfl
  split
  · rfl
  cases zo data with
  | error e =>
    dsimp only
    rw [← bumpResync_addResync_comm]
  | ok cs =>
    dsimp only
    cases zstdCapLoop maxDecompressedSize cs 0 with
    | none =>
      dsimp only
      rw [← bumpResync_addResync_comm]
    | some cs2 => rfl

/-- `_parse_notify` commutes with a pre-added resync count. -/
theorem parse_notify_addResync (zo : ZChunkOracle) (body : Bytes) (z : Bool)
    (off : Nat) (st : FramerSt) (k : Nat) :
    parse_notify zo body z off (st.addResync k) =
      ((parse_notify zo body z off st).1,
       (parse_notify zo body z off st).2.addResync k) := by
  unfold parse_notify
  split
  · dsimp only
    rw [← bumpResync_addResync_comm]
  · rw [framer_maybe_decompress_addResync]

theorem st1_addResync (st : FramerSt) (k ft : Nat) :
    ({ st.addResync k with
       frames_parsed := (st.addResync k).frames_parsed + 1,
       fragment_histogram := fun t =>
         if t = ft then (st.addResync k).fragment_histogram t + 1
         else (st.addResync k).fragment_histogram t } : FramerSt) =
      ({ st with
         frames_parsed := st.frames_parsed + 1,
         fragment_histogram := fun t =>
           if t = ft then st.fragment_histogram t + 1
           else st.fragment_histogram t } : FramerSt).addResync k := rfl

theorem notifyBump_addResync (st : FramerSt) (k : Nat) :
    ({ st.addResync k with
       notify_frames := (st.addResync k).notify_frames + 1 } : FramerSt) =
      ({ st with notify_frames := st.notify_frames + 1 } : FramerSt).addResync k := rfl

theorem maxBump_addResync (st : FramerSt) (k m : Nat) :
    ({ st.addResync k with
       max_depth := max (st.addResync k).max_depth m } : FramerSt) =
      ({ st with max_depth := max st.max_depth m } : FramerSt).addResync k := rfl

/-- `_parse_stream` acts on the resync counter purely additively: running
it from a state with `k` extra resyncs yields the same frames and the
same final state with `k` extra resyncs. -/
theorem parse_stream_addResync (zo : ZChunkOracle) :
    ∀ (fuel : Nat) (buf : Bytes) (o d : Nat) (st : FramerSt) (k : Nat),
      parse_stream zo fuel buf o d (st.addResync k) =
        ((parse_stream zo fuel buf o d st).1,
         (parse_stream zo fuel buf o d st).2.addResync k) := by
  intro fuel
  induction fuel with
  | zero =>
    intro buf o d st k
    rfl
  | succ f ih =>
    intro buf o d st k
    rw [parse_stream, parse_stream]
    by_cases h6 : o + 6 ≤ buf.length
    case neg =>
      rw [if_neg h6, if_neg h6]
    rw [if_pos h6, if_pos h6]
    dsimp only
    by_cases hlt : be32 buf o < 6
    case pos =>
      rw [if_pos hlt, if_pos hlt, ← bumpResync_addResync_comm]
      exact ih buf (o + 1) d st.bumpResync k
    rw [if_neg hlt, if_neg hlt]
    by_cases hend : o + be32 buf o > buf.length
    case pos =>
      rw [if_pos hend, if_pos hend, ← bumpResync_addResync_comm]
      exact ih buf (o + 1) d st.bumpResync k
    rw [if_neg hend, if_neg hend]
    by_cases hfrag : be16 buf (o + 4) &&& 0x7FFF = 0x0002
    case pos =>
      rw [if_pos hfrag, if_pos hfrag, st1_addResync, parse_notify_addResync]
      rcases hpn : parse_notify zo (slice buf (o + 6) (o + be32 buf o))
          (decide (¬be16 buf (o + 4) &&& 0x8000 = 0)) o
          ({ st with
             frames_parsed := st.frames_parsed + 1,
             fragment_histogram := fun t =>
               if t = be16 buf (o + 4) &&& 0x7FFF then st.fragment_histogram t + 1
               else st.fragment_histogram t } : FramerSt) with ⟨onf, st2⟩
      cases onf with
      | some nf =>
        dsimp only
        rw [notifyBump_addResync,
          ih buf (o + be32 buf o) d
            ({ st2 with notify_frames := st2.notify_frames + 1 } : FramerSt) k]
      | none =>
        dsimp only
        exact ih buf (o + be32 buf o) d st2 k
    rw [if_neg hfrag, if_neg hfrag]
    by_cases hfd : be16 buf (o + 4) &&& 0x7FFF = 0x0006
    case neg =>
      rw [if_neg hfd, if_neg hfd, st1_addResync]
      exact ih buf (o + be32 buf o) d _ k
    rw [if_pos hfd, if_pos hfd]
    by_cases hb4 : 4 ≤ (slice buf (o + 6) (o + be32 buf o)).length
    case neg =>
      rw [if_neg hb4, if_neg hb4, st1_addResync, ← bumpResync_addResync_comm]
      exact ih buf (o + be32 buf o) d _ k
    rw [if_pos hb4, if_pos hb4, st1_addResync, framer_maybe_decompress_addResync]
    dsimp only
    by_cases hne : (framer_maybe_decompress zo
        ((slice buf (o + 6) (o + be32 buf o)).drop 4)
        (decide (¬be16 buf (o + 4) &&& 0x8000 = 0))
        ({ st with
           frames_parsed := st.frames_parsed + 1,
           fragment_histogram := fun t =>
             if t = be16 buf (o + 4) &&& 0x7FFF then st.fragment_histogram t + 1
             else st.fragment_histogram t } : FramerSt)).1 = []
    case pos =>
      rw [if_neg (not_not_intro hne), if_neg (not_not_intro hne)]
      exact ih buf (o + be32 buf o) d _ k
    rw [if_pos hne, if_pos hne, maxBump_addResync,
      ih _ 0 (d + 1) _ k]
    dsimp only
    rw [ih buf (o + be32 buf o) d _ k]

theorem addResync_zero (st : FramerSt) : st.addResync 0 = st := rfl

/-- `_parse_notify` depends on the frame offset only through the
diagnostic `offset` field of the produced frame. -/
theorem parse_notify_offset (zo : ZChunkOracle) (body : Bytes) (z : Bool)
    (o1 o2 : Nat) (st : FramerSt) :
    (parse_notify zo body z o1 st).2 = (parse_notify zo body z o2 st).2 ∧
    Option.map NotifyFrame.scrub (parse_notify zo body z o1 st).1 =
      Option.map NotifyFrame.scrub (parse_notify zo body z o2 st).1 ∧
    (parse_notify zo body z o1 st).1.isNone =
      (parse_notify zo body z o2 st).1.isNone := by
  unfold parse_notify
  split
  · exact ⟨rfl, rfl, rfl⟩
  · exact ⟨rfl, rfl, rfl⟩

/-- The byte-sliding walk over a prefix of framing misses: each position
that starts no plausible frame costs exactly one resync and one byte. -/
theorem parse_stream_prefix_walk (zo : ZChunkOracle) :
    ∀ (n fuel : Nat) (buf : Bytes) (o d : Nat) (st : FramerSt),
      (∀ j, j < n → misfireAt buf (o + j)) → o + n + 6 ≤ buf.length →
      parse_stream zo (n + fuel) buf o d st =
        parse_stream zo fuel buf (o + n) d (st.addResync n) := by
  intro n
  induction n with
  | zero =>
    intro fuel buf o d st hmis hlen
    rw [Nat.zero_add, Nat.add_zero, addResync_zero]
  | succ m ihm =>
    intro fuel buf o d st hmis hlen
    have hshift : ∀ j, j < m → misfireAt buf (o + 1 + j) := by
      intro j hj
      have h1 := hmis (j + 1) (by omega)
      rwa [show o + (j + 1) = o + 1 + j from by omega] at h1
    have hm0 : misfireAt buf o := by
      have h1 := hmis 0 (by omega)
      rwa [Nat.add_zero] at h1
    rw [show m + 1 + fuel = (m + fuel) + 1 from by omega, parse_stream]
    have h6 : o + 6 ≤ buf.length := by omega
    rw [if_pos h6]
    dsimp only
    by_cases hlt : be32 buf o < 6
    · rw [if_pos hlt, ihm fuel buf (o + 1) d st.bumpResync hshift (by omega),
        addResync_bumpResync, show o + 1 + m = o + (m + 1) from by omega]
    · have hover : o + be32 buf o > buf.length := by
        rcases hm0 with h | h
        · exact absurd h hlt
        · omega
      rw [if_neg hlt, if_pos hover,
        ihm fuel buf (o + 1) d st.bumpResync hshift (by omega),
        addResync_bumpResync, show o + 1 + m = o + (m + 1) from by omega]

/-- Parsing a suffix is position-independent: running `_parse_stream`
on `G ++ B` from offset `len(G) + j` behaves exactly as running it on
`B` from offset `j` — same counters, same frames up to the diagnostic
`offset` field. -/
theorem parse_stream_shift (zo : ZChunkOracle) (G B : Bytes) :
    ∀ (fuel j d : Nat) (st : FramerSt),
      ((parse_stream zo fuel (G ++ B) (G.length + j) d st).1.map NotifyFrame.scrub =
        (parse_stream zo fuel B j d st).1.map NotifyFrame.scrub) ∧
      (parse_stream zo fuel (G ++ B) (G.length + j) d st).2 =
        (parse_stream zo fuel B j d st).2 := by
  intro fuel
  induction fuel with
  | zero =>
    intro j d st
    exact ⟨rfl, rfl⟩
  | succ f ih =>
    intro j d st
    rw [parse_stream, parse_stream]
    have hlen : (G ++ B).length = G.length + B.length := List.length_append G B
    by_cases h6 : j + 6 ≤ B.length
    case neg =>
      rw [if_neg h6,
        if_neg (show ¬G.length + j + 6 ≤ (G ++ B).length from by rw [hlen]; omega)]
      exact ⟨rfl, rfl⟩
    rw [if_pos h6,
      if_pos (show G.length + j + 6 ≤ (G ++ B).length from by rw [hlen]; omega)]
    dsimp only
    rw [show G.length + j + 4 = G.length + (j + 4) from by omega,
      be32_append, be16_append]
    by_cases hlt : be32 B j < 6
    case pos =>
      rw [if_pos hlt, if_pos hlt,
        show G.length + j + 1 = G.length + (j + 1) from by omega]
      exact ih (j + 1) d st.bumpResync
    rw [if_neg hlt, if_neg hlt]
    by_cases hend : j + be32 B j > B.length
    case pos =>
      rw [if_pos (show G.length + j + be32 B j > (G ++ B).length from by
            rw [hlen]; omega),
        if_pos hend,
        show G.length + j + 1 = G.length + (j + 1) from by omega]
      exact ih (j + 1) d st.bumpResync
    rw [if_neg (show ¬G.length + j + be32 B j > (G ++ B).length from by
          rw [hlen]; omega),
      if_neg hend]
    have hslice : slice (G ++ B) (G.length + j + 6) (G.length + j + be32 B j) =
        slice B (j + 6) (j + be32 B j) := by
      rw [show G.length + j + 6 = G.length + (j + 6) from by omega,
        show G.length + j + be32 B j = G.length + (j + be32 B j) from by omega,
        slice_append_shift]
    rw [hslice]
    rw [show G.length + j + be32 B j = G.length + (j + be32 B j) from by omega]
    by_cases hfrag : be16 B (j + 4) &&& 0x7FFF = 0x0002
    case pos =>
      rw [if_pos hfrag, if_pos hfrag]
      have hoff := parse_notify_offset zo (slice B (j + 6) (j + be32 B j))
        (decide (¬be16 B (j + 4) &&& 0x8000 = 0)) (G.length + j) j
        ({ st with
           frames_parsed := st.frames_parsed + 1,
           fragment_histogram := fun t =>
             if t = be16 B (j + 4) &&& 0x7FFF then st.fragment_histogram t + 1
             else st.fragment_histogram t } : FramerSt)
      rcases hL : parse_notify zo (slice B (j + 6) (j + be32 B j))
          (decide (¬be16 B (j + 4) &&& 0x8000 = 0)) (G.length + j)
          ({ st with
             frames_parsed := st.frames_parsed + 1,
             fragment_histogram := fun t =>
               if t = be16 B (j + 4) &&& 0x7FFF then st.fragment_histogram t + 1
               else st.fragment_histogram t } : FramerSt) with ⟨onfL, st2L⟩
      rcases hR : parse_notify zo (slice B (j + 6) (j + be32 B j))
          (decide (¬be16 B (j + 4) &&& 0x8000 = 0)) j
          ({ st with
             frames_parsed := st.frames_parsed + 1,
             fragment_histogram := fun t =>
               if t = be16 B (j + 4) &&& 0x7FFF then st.fragment_histogram t + 1
               else st.fragment_histogram t } : FramerSt) with ⟨onfR, st2R⟩
      obtain ⟨hst2, hscrub, hnone⟩ := hoff
      rw [hL, hR] at hst2 hscrub hnone
      (try dsimp only at hst2)
      (try dsimp only at hscrub)
      (try dsimp only at hnone)
      cases hst2
      cases onfL with
      | some nfL =>
        cases onfR with
        | some nfR =>
          dsimp only
          have hs : nfL.scrub = nfR.scrub := by
            simpa using hscrub
          refine ⟨?_, ?_⟩
          · rw [List.map_cons, List.map_cons, hs,
              (ih (j + be32 B j) d
                ({ st2L with notify_frames := st2L.notify_frames + 1 } : FramerSt)).1]
          · exact (ih (j + be32 B j) d
              ({ st2L with notify_frames := st2L.notify_frames + 1 } : FramerSt)).2
        | none => cases hnone
      | none =>
        cases onfR with
        | some nfR => cases hnone
        | none =>
          dsimp only
          exact ih (j + be32 B j) d st2L
    rw [if_neg hfrag, if_neg hfrag]
    by_cases hfd : be16 B (j + 4) &&& 0x7FFF = 0x0006
    case neg =>
      rw [if_neg hfd, if_neg hfd]
      exact ih (j + be32 B j) d _
    rw [if_pos hfd, if_pos hfd]
    by_cases hb4 : 4 ≤ (slice B (j + 6) (j + be32 B j)).length
    case neg =>
      rw [if_neg hb4, if_neg hb4]
      exact ih (j + be32 B j) d _
    rw [if_pos hb4, if_pos hb4]
    by_cases hne : (framer_maybe_decompress zo
        ((slice B (j + 6) (j + be32 B j)).drop 4)
        (decide (¬be16 B (j + 4) &&& 0x8000 = 0))
        ({ st with
           frames_parsed := st.frames_parsed + 1,
           fragment_histogram := fun t =>
             if t = be16 B (j + 4) &&& 0x7FFF then st.fragment_histogram t + 1
             else st.fragment_histogram t } : FramerSt)).1 = []
    case pos =>
      rw [if_neg (not_not_intro hne), if_neg (not_not_intro hne)]
      exact ih (j + be32 B j) d _
    rw [if_pos hne, if_pos hne]
    dsimp only
    refine ⟨?_, ?_⟩
    · rw [List.map_append, List.map_append,
        (ih (j + be32 B j) d _).1]
    · exact (ih (j + be32 B j) d _).2

/-- C3 (amended): prepending `k` bytes of garbage such that no offset
inside the prefix starts a plausible frame (declared length ≥ 6 and
fitting in the buffer) makes the framer slide byte-by-byte through the
prefix — `resync_events` grows by exactly `k` — and then parse the
original buffer identically: same counters, and the same NotifyFrames up
to the diagnostic `offset` field. -/
theorem c3_prepended_garbage (zo : ZChunkOracle) (fuel : Nat) (G B : Bytes)
    (depth : Nat) (st : FramerSt)
    (hB : 6 ≤ B.length)
    (hG : ∀ j, j < G.length → misfireAt (G ++ B) j) :
    ((parse_stream zo (G.length + fuel) (G ++ B) 0 depth st).1.map NotifyFrame.scrub =
      (parse_stream zo fuel B 0 depth st).1.map NotifyFrame.scrub) ∧
    (parse_stream zo (G.length + fuel) (G ++ B) 0 depth st).2 =
      (parse_stream zo fuel B 0 depth st).2.addResync G.length ∧
    (parse_stream zo (G.length + fuel) (G ++ B) 0 depth st).2.resync_events =
      (parse_stream zo fuel B 0 depth st).2.resync_events + G.length ∧
    (parse_stream zo (G.length + fuel) (G ++ B) 0 depth st).2.frames_parsed =
      (parse_stream zo fuel B 0 depth st).2.frames_parsed ∧
    (parse_stream zo (G.length + fuel) (G ++ B) 0 depth st).2.notify_frames =
      (parse_stream zo fuel B 0 depth st).2.notify_frames := by
  have hwalk := parse_stream_prefix_walk zo G.length fuel (G ++ B) 0 depth st
    (by
      intro j hj
      have h1 := hG j hj
      rwa [Nat.zero_add])
    (by rw [List.length_append]; omega)
  rw [Nat.zero_add] at hwalk
  have hshift := parse_stream_shift zo G B fuel 0 depth (st.addResync G.length)
  rw [Nat.add_zero] at hshift
  have hadd := parse_stream_addResync zo fuel B 0 depth st G.length
  have hst : (parse_stream zo (G.length + fuel) (G ++ B) 0 depth st).2 =
      (parse_stream zo fuel B 0 depth st).2.addResync G.length := by
    rw [hwalk, hshift.2, hadd]
  refine ⟨?_, hst, ?_, ?_, ?_⟩
  · rw [hwalk, hshift.1, hadd]
  · rw [hst]
    rfl
  · rw [hst]
    rfl
  · rw [hst]
    rfl

/-- Witness for `c3_prepended_garbage`: one zero byte prepended to the
valid Notify buffer `c3B` costs exactly one resync. -/
theorem c3_prepended_garbage_witness :
    (parse_stream failZo (([0] : Bytes).length + 50) ([0] ++ c3B) 0 1 { }).2.resync_events =
      (parse_stream failZo 50 c3B 0 1 { }).2.resync_events + ([0] : Bytes).length :=
  (c3_prepended_garbage failZo 50 [0] c3B 1 { } (by decide) (by decide)).2.2.1

/-- C3 counterexample: `c3B` is a valid buffer (one NotifyFrame, zero
resyncs), but prepending the six bytes `00 00 00 1C 00 02` — which
declare a plausible 28-byte Notify frame swallowing all of `c3B` — does
not add six resyncs: the framer accepts the bogus frame, so
`resync_events` stays 0 and the yielded frame differs.  "Any k bytes of
garbage" is too strong. -/
theorem c3_plausible_garbage_breaks_resync :
    (iter_notify_frames failZo 50 c3B).2.resync_events = 0 ∧
    (iter_notify_frames failZo 50 c3B).2.notify_frames = 1 ∧
    (iter_notify_frames failZo 50 (c3G ++ c3B)).2.resync_events ≠
      (iter_notify_frames failZo 50 c3B).2.resync_events + c3G.length := by
  refine ⟨by decide, by decide, by decide⟩

end BpsrLabs
